import Mathlib

/-!
# ttyrec4windows

A shallow embedding of the three programs of the repository:

* `ttyrec/ttyrec.go`  : the recorder (screen-diff encoder, `writeBytes`, `fgToAnsi`, `bgToAnsi`),
* `ttyplay/ttyplay.go`: the player (frame reader, pacing, escape-sequence decoder),
* `ttytime/ttytime.go`: the duration tool (`calc_time`).

Bytes, runes, UTF-16 units and attribute words are natural numbers; the machine
widths of the source (`uint32`, `word`, `short`, `int32`) are applied explicitly
where the source computes in them.  A file is the list of bytes that are still
unread.
-/

set_option autoImplicit false

/-! ## Go runtime and standard library, as far as the programs use them -/

namespace Go

/-- Conversion to `uint32`. -/
def uint32 (n : Nat) : Nat := n % 4294967296

/-- Conversion of an integer to `int16` (the `short` of the sources): wrap around. -/
def int16 (i : Int) : Int := (i + 32768) % 65536 - 32768

/-- Conversion of an integer to `int32`: wrap around. -/
def int32 (i : Int) : Int := (i + 2147483648) % 4294967296 - 2147483648

/-- Conversion of a natural number to `uint16` (the `word` of the sources). -/
def uint16 (n : Nat) : Nat := n % 65536

/-- What `binary.Write(f, binary.LittleEndian, v)` appends for a `uint32` value:
four bytes, least significant first. -/
def putUint32 (v : Nat) : List Nat :=
  [v % 256, v / 256 % 256, v / 65536 % 256, v / 16777216 % 256]

/-- The `uint32` that `binary.LittleEndian` reads from four bytes. -/
def getUint32 (b0 b1 b2 b3 : Nat) : Nat :=
  uint32 (b0 + 256 * b1 + 65536 * b2 + 16777216 * b3)

/-- The call `binary.Read(f, binary.LittleEndian, &header)` for `header : [3]uint32`:
twelve bytes are needed; with fewer the call returns an error (`none`). -/
def readHeader : List Nat → Option ((Nat × Nat × Nat) × List Nat)
  | a0 :: a1 :: a2 :: a3 :: b0 :: b1 :: b2 :: b3 :: c0 :: c1 :: c2 :: c3 :: rest =>
      some ((getUint32 a0 a1 a2 a3, getUint32 b0 b1 b2 b3, getUint32 c0 c1 c2 c3), rest)
  | _ => none

/-- One call `f.Read(p)` with `len(p) = room` on a file with `f` still unread.
A read into an empty slice returns `0, nil`; at the end of the file the call
returns `io.EOF` (`none`); otherwise it delivers at least one byte and at most
`room` bytes, and at most `chunk` bytes when the source (a pipe) delivers short
reads.  The result is the bytes read and the rest of the file. -/
def fileRead (chunk : Nat) (f : List Nat) (room : Nat) : Option (List Nat × List Nat) :=
  if room = 0 then some ([], f)
  else if f.isEmpty then none
  else
    let n := min room (max chunk 1)
    some (f.take n, f.drop n)

/-- The effect of reading `src` into `data[off:]`. -/
def copyAt (data : List Nat) (off : Nat) (src : List Nat) : List Nat :=
  data.take off ++ src ++ data.drop (off + src.length)

/-- Conversion of an integer to `uint32` (`dword(...)` of a `short`): sign extension,
then the low 32 bits. -/
def dword (i : Int) : Nat := (i % 4294967296).toNat

/-- The bytes of `string(r)` for a rune `r`: its UTF-8 encoding, and the encoding of
U+FFFD for a surrogate or a value above U+10FFFF. -/
def utf8Encode (r : Nat) : List Nat :=
  if r < 0x80 then [r]
  else if r < 0x800 then [0xC0 + r / 64, 0x80 + r % 64]
  else if 0xD800 ≤ r ∧ r < 0xE000 then [0xEF, 0xBF, 0xBD]
  else if r < 0x10000 then [0xE0 + r / 4096, 0x80 + r / 64 % 64, 0x80 + r % 64]
  else if r < 0x110000 then
    [0xF0 + r / 262144, 0x80 + r / 4096 % 64, 0x80 + r / 64 % 64, 0x80 + r % 64]
  else [0xEF, 0xBF, 0xBD]

/-- The function `utf16.Decode`: a unit outside the surrogate range is a rune, a high
surrogate followed by a low surrogate is one rune, any other surrogate is U+FFFD. -/
def utf16Decode : List Nat → List Nat
  | [] => []
  | [r] => if r < 0xd800 ∨ 0xe000 ≤ r then [r] else [0xFFFD]
  | r :: r2 :: rest =>
    if r < 0xd800 ∨ 0xe000 ≤ r then r :: utf16Decode (r2 :: rest)
    else if 0xd800 ≤ r ∧ r < 0xdc00 ∧ 0xdc00 ≤ r2 ∧ r2 < 0xe000 then
      ((r - 0xd800) * 1024 + (r2 - 0xdc00) + 0x10000) :: utf16Decode rest
    else 0xFFFD :: utf16Decode (r2 :: rest)

/-- The bytes that the verb `%d` prints for an integer. -/
def fmtInt (i : Int) : List Nat :=
  match i with
  | Int.ofNat n => (Nat.toDigits 10 n).map Char.toNat
  | Int.negSucc n => 45 :: (Nat.toDigits 10 (n + 1)).map Char.toNat

/-- The value of a string of decimal digits; `none` when a byte is not a digit. -/
def digitsValue : List Nat → Nat → Option Nat
  | [], acc => some acc
  | c :: cs, acc => if 48 ≤ c ∧ c ≤ 57 then digitsValue cs (acc * 10 + (c - 48)) else none

/-- The function `strconv.Atoi` on the bytes of a string, for a 64-bit `int`: an
optional sign, then at least one digit and nothing but digits; a value outside
the range of `int` is an error. -/
def Atoi (s : List Nat) : Option Int :=
  let body := match s with
    | 43 :: r => r
    | 45 :: r => r
    | r => r
  let neg := match s with
    | 45 :: _ => true
    | _ => false
  if body.isEmpty then none
  else
    match digitsValue body 0 with
    | none => none
    | some v =>
      if neg then (if v ≤ 9223372036854775808 then some (- (v : Int)) else none)
      else (if v < 9223372036854775808 then some (v : Int) else none)

/-- The function `strings.Split(s, sep)` for a one-byte separator: `cur` collects the
bytes of the piece being read. -/
def splitAux (sep : Nat) : List Nat → List Nat → List (List Nat)
  | [], cur => [cur]
  | c :: cs, cur => if c = sep then cur :: splitAux sep cs [] else splitAux sep cs (cur ++ [c])

/-- The function `strings.Split(s, sep)` for a one-byte separator. -/
def Split (s : List Nat) (sep : Nat) : List (List Nat) := splitAux sep s []

/-- The function `utf8.DecodeRune` on a byte string: the first rune and its width in
bytes.  A byte string that does not start with a well-formed encoding gives
U+FFFD with width 1, the empty string U+FFFD with width 0. -/
def decodeRune (p : List Nat) : Nat × Nat :=
  match p with
  | [] => (0xFFFD, 0)
  | p0 :: rest =>
    if p0 < 0x80 then (p0, 1)
    else if p0 < 0xC2 ∨ 0xF4 < p0 then (0xFFFD, 1)
    else
      let lo : Nat := if p0 = 0xE0 then 0xA0 else if p0 = 0xF0 then 0x90 else 0x80
      let hi : Nat := if p0 = 0xED then 0x9F else if p0 = 0xF4 then 0x8F else 0xBF
      match rest with
      | [] => (0xFFFD, 1)
      | b1 :: rest1 =>
        if b1 < lo ∨ hi < b1 then (0xFFFD, 1)
        else if p0 < 0xE0 then ((p0 % 32) * 64 + b1 % 64, 2)
        else
          match rest1 with
          | [] => (0xFFFD, 1)
          | b2 :: rest2 =>
            if b2 < 0x80 ∨ 0xBF < b2 then (0xFFFD, 1)
            else if p0 < 0xF0 then ((p0 % 16) * 4096 + (b1 % 64) * 64 + b2 % 64, 3)
            else
              match rest2 with
              | [] => (0xFFFD, 1)
              | b3 :: _ =>
                if b3 < 0x80 ∨ 0xBF < b3 then (0xFFFD, 1)
                else ((p0 % 8) * 262144 + (b1 % 64) * 4096 + (b2 % 64) * 64 + b3 % 64, 4)

/-- The runes that a reader of a string delivers, one `utf8.DecodeRune` after the
other; `fuel` is the number of bytes, an upper bound on the number of runes. -/
def runesAux : Nat → List Nat → List Nat
  | 0, _ => []
  | fuel + 1, p =>
    if p.isEmpty then []
    else (decodeRune p).1 :: runesAux fuel (p.drop (decodeRune p).2)

/-- The runes of a string given by its bytes. -/
def runes (s : List Nat) : List Nat := runesAux s.length s

/-- The function `isSpace` of the scanner of `fmt`: its table of white space. -/
def isSpace (r : Nat) : Bool :=
  (0x0009 ≤ r && r ≤ 0x000d) || r = 0x0020 || r = 0x0085 || r = 0x00a0 || r = 0x1680
    || (0x2000 ≤ r && r ≤ 0x200a) || (0x2028 ≤ r && r ≤ 0x2029) || r = 0x202f
    || r = 0x205f || r = 0x3000

/-- The leading digits of a string and what follows them. -/
def spanDigits : List Nat → List Nat × List Nat
  | [] => ([], [])
  | c :: cs =>
    if 48 ≤ c ∧ c ≤ 57 then ((c :: (spanDigits cs).1), (spanDigits cs).2) else ([], c :: cs)

/-- One verb `%d` of `fmt.Sscanf` scanning the runes of the input into an integer of
`bits` bits: leading white space is skipped (a newline there is an error), an
optional sign is accepted, at least one digit is required, and the value has to
fit the target.  The result is the value and the unread runes, or `none` for an
error. -/
def scanInt (bits : Nat) : List Nat → Option (Int × List Nat)
  | [] => none
  | c :: cs =>
    if c = 10 then none
    else if isSpace c then scanInt bits cs
    else
      let neg : Bool := c = 45
      let body := if c = 43 ∨ c = 45 then cs else c :: cs
      let sp := spanDigits body
      match sp.1, digitsValue sp.1 0 with
      | [], _ => none
      | _ :: _, none => none
      | _ :: _, some v =>
        let i : Int := if neg then - (v : Int) else (v : Int)
        if - (2 : Int) ^ (bits - 1) ≤ i ∧ i < (2 : Int) ^ (bits - 1) then some (i, sp.2) else none

/-- The call `fmt.Sscanf(s, "%d", &n)` on the bytes of `s`: the value stored, or
`none` when the call returns an error (and stores nothing). -/
def Sscanf_d (bits : Nat) (s : List Nat) : Option Int :=
  match scanInt bits (runes s) with
  | none => none
  | some (i, _) => some i

/-- The call `fmt.Sscanf(s, "%d;%d", &a, &b)` on the bytes of `s`: the values stored,
in order; their number is the count that the call returns. -/
def Sscanf_d_d (bits : Nat) (s : List Nat) : List Int :=
  match scanInt bits (runes s) with
  | none => []
  | some (a, rest) =>
    match rest with
    | 59 :: rest2 =>
      match scanInt bits rest2 with
      | none => [a]
      | some (b, _) => [a, b]
    | _ => [a]

/-! ### `float64` and `int64`, as far as line 159 of the player uses them -/

/-- Conversion of an integer to `int64`: wrap around. -/
def int64 (i : Int) : Int :=
  (i + 9223372036854775808) % 18446744073709551616 - 9223372036854775808

/-- A `float64` value: a finite value `m * 2^e`, negated when `neg` is set, an
infinity, or a NaN.  Every `float64` is of this form with `m < 2^53` and
`-1074 ≤ e ≤ 971`. -/
inductive Float64 where
  | finite (neg : Bool) (m : Nat) (e : Int)
  | inf (neg : Bool)
  | nan
deriving DecidableEq, Repr

/-- The halvings of `n` down to 1, counted; `fuel` bounds the recursion. -/
def log2Aux : Nat → Nat → Nat
  | 0, _ => 0
  | fuel + 1, n => if 2 ≤ n then log2Aux fuel (n / 2) + 1 else 0

/-- The integer part of the binary logarithm of a positive `n` (the position of its
highest bit). -/
def log2 (n : Nat) : Nat := log2Aux n n

/-- The integer part of the binary logarithm of `n / d`, for positive `n` and `d`:
the `L` with `2^L ≤ n / d < 2^(L+1)`. -/
def quoLog2 (n d : Nat) : Int :=
  let c : Int := (log2 n : Int) - (log2 d : Int)
  if 0 ≤ c then (if d * 2 ^ c.toNat ≤ n then c else c - 1)
  else (if d ≤ n * 2 ^ (-c).toNat then c else c - 1)

/-- The whole number nearest to `num / den`, the even one of two that are equally
near. -/
def roundHalfEven (num den : Nat) : Nat :=
  if den < 2 * (num % den) ∨ (2 * (num % den) = den ∧ (num / den) % 2 = 1) then num / den + 1
  else num / den

/-- The `float64` nearest to `n / d` for positive `n` and `d` (round to nearest, ties
to even): `some (sig, k)` for the value `sig * 2^k`, where the unit `2^k` is that
of a 53-bit significand and not below `2^-1074`, and `none` when the rounded
value is `2^1024` or more (the quotient overflows to an infinity). -/
def roundQuo (n d : Nat) : Option (Nat × Int) :=
  let k : Int := max (quoLog2 n d - 52) (-1074)
  let sig : Nat :=
    if 0 ≤ k then roundHalfEven n (d * 2 ^ k.toNat) else roundHalfEven (n * 2 ^ (-k).toNat) d
  if 971 < k ∨ (k = 971 ∧ 9007199254740992 ≤ sig) then none else some (sig, k)

/-- The quotient `float64(d) / s` for a natural number `d` below `2^53` (so that
`float64(d)` is `d`): IEEE 754 division. -/
def divNat (d : Nat) (s : Float64) : Float64 :=
  match s with
  | Float64.nan => Float64.nan
  | Float64.inf neg => Float64.finite neg 0 0
  | Float64.finite neg m e =>
    if m = 0 then (if d = 0 then Float64.nan else Float64.inf neg)
    else if d = 0 then Float64.finite neg 0 0
    else
      match roundQuo (d * 2 ^ (-e).toNat) (m * 2 ^ e.toNat) with
      | none => Float64.inf neg
      | some (sig, k) => Float64.finite neg sig k

/-- The conversion of a `float64` to `int64`: the fraction is discarded.  For a value
that `int64` cannot hold (also an infinity, a NaN) the language leaves the result
to the implementation: `big` is what the platform delivers. -/
def int64OfFloat (big : Float64 → Int) (x : Float64) : Int :=
  match x with
  | Float64.finite neg m e =>
    let mag : Int := if 0 ≤ e then (m : Int) * 2 ^ e.toNat else (m : Int) / 2 ^ (-e).toNat
    let v : Int := if neg then - mag else mag
    if -9223372036854775808 ≤ v ∧ v ≤ 9223372036854775807 then v else big x
  | _ => big x

end Go

/-! ## The console types that the recorder and the player both declare -/

/-- The type `coord` of the sources; the fields are `short`. -/
structure coord where
  x : Int
  y : Int
deriving DecidableEq, Repr

/-- The type `smallRect` of the sources; the fields are `short`. -/
structure smallRect where
  left : Int
  top : Int
  right : Int
  bottom : Int
deriving DecidableEq, Repr

/-- The type `consoleScreenBufferInfo` of the sources. -/
structure consoleScreenBufferInfo where
  size : coord
  cursorPosition : coord
  attributes : Nat
  window : smallRect
  maximumWindowSize : coord
deriving DecidableEq, Repr

/-! ## The recorder: frame writer and attribute table (`ttyrec/ttyrec.go`) -/

namespace ttyrec

/-- The function `fgToAnsi` of the recorder. -/
def fgToAnsi (a : Nat) : Nat :=
  match a % 16 with
  | 0 => 30
  | 1 => 20
  | 2 => 18
  | 3 => 22
  | 4 => 17
  | 5 => 21
  | 6 => 19
  | 7 => 23
  | 8 => 30
  | 9 => 34
  | 10 => 32
  | 11 => 36
  | 12 => 31
  | 13 => 35
  | 14 => 33
  | 15 => 37
  | _ => 30

/-- The function `bgToAnsi` of the recorder; the argument is a `uint16`. -/
def bgToAnsi (a : Nat) : Nat :=
  match a / 0x10 with
  | 0 => 40
  | 1 => 44
  | 2 => 42
  | 3 => 46
  | 4 => 41
  | 5 => 45
  | 6 => 43
  | 7 => 47
  | 8 => 40
  | 9 => 44
  | 10 => 42
  | 11 => 46
  | 12 => 41
  | 13 => 45
  | 14 => 43
  | 15 => 47
  | _ => 0

/-- The function `writeBytes` of the recorder: `nanos` is the clock reading
`time.Now().UnixNano()`, `f` the bytes written to the file so far, `b` the payload.
The result is the file after the call. -/
def writeBytes (nanos : Nat) (f : List Nat) (b : List Nat) : List Nat :=
  let t := nanos / 1000
  f ++ Go.putUint32 (Go.uint32 (t / 1000000))
    ++ Go.putUint32 (Go.uint32 (t % 1000000))
    ++ Go.putUint32 (Go.uint32 b.length)
    ++ b

end ttyrec

/-! ## The recorder: screen-diff encoder (`ttyrec/ttyrec.go`, function `record`) -/

namespace ttyrec

/-- The type `charInfo` of the recorder: the runes and the attributes of one row. -/
structure charInfo where
  buf : List Nat
  att : List Nat
deriving DecidableEq, Repr

/-- The function `getSize` of the recorder, in `short` arithmetic. -/
def getSize (sr : smallRect) : coord :=
  { x := Go.int16 (sr.right - sr.left), y := Go.int16 (sr.bottom - sr.top) }

/-- What the console answers during one turn of the sampling loop: the screen
buffer info, `cci.visible`, and the two row reads at a position for a number of
cells (`ReadConsoleOutputCharacterW` delivers UTF-16 units,
`ReadConsoleOutputAttribute` attribute words).  `none` is a call that returns 0. -/
structure Screen where
  info : Option consoleScreenBufferInfo
  cursorInfo : Option Int
  readChars : coord → Nat → Option (List Nat)
  readAttrs : coord → Nat → Option (List Nat)

/-- The variables of `record` that live across samples. -/
structure Retained where
  oldsize : coord
  oldcurpos : coord
  oldcurvis : Bool
  oldbuf : List charInfo
deriving DecidableEq, Repr

/-- The comparison loop of lines 283-288 on the runes `cb` and the attribute buffer
`ca` of the row just read and the retained `ob`, `oa`, from the index where the
four lists start.  The result is `diff`; `none` is an index out of range. -/
def rowDiff : List Nat → List Nat → List Nat → List Nat → Option Bool
  | [], _, _, _ => some false
  | _ :: _, _, [], _ => none
  | c :: cb, ca, o :: ob, oa =>
    if c ≠ o then some true
    else
      match ca, oa with
      | a :: ca1, p :: oa1 => if a ≠ p then some true else rowDiff cb ca1 ob oa1
      | _, _ => none

/-- The bytes of `fmt.Fprintf(&bb, "\x1b[%d;%dm", fgToAnsi(a), bgToAnsi(a))`. -/
def sgrBytes (a : Nat) : List Nat :=
  [0x1b, 0x5b] ++ Go.fmtInt (fgToAnsi a) ++ [59] ++ Go.fmtInt (bgToAnsi a) ++ [0x6d]

/-- The bytes of `fmt.Fprintf(&bb, "\x1b[%d;%dH", row, col)`. -/
def cursorBytes (row col : Int) : List Nat :=
  [0x1b, 0x5b] ++ Go.fmtInt row ++ [59] ++ Go.fmtInt col ++ [0x48]

/-- The emission loop of lines 295-301: `a` is the attribute emitted last, `cb` the
runes and `ca` the attribute buffer from the current index on.  The buffer `ca`
has an entry for every rune (it has `l` entries and a row has at most `l` runes),
so the case of an exhausted `ca` is not reached from `row`. -/
def emitCells : Nat → List Nat → List Nat → List Nat
  | _, [], _ => []
  | _, _ :: _, [] => []
  | a, c :: cb, x :: ca =>
    (if a ≠ x then sgrBytes x else []) ++ Go.utf8Encode c ++ emitCells x cb ca

/-- The bytes written for a row that is rewritten (lines 293-302): the cursor is put
on the first column of row `y + 1`, the cells follow, then `ESC [ 0 m`. -/
def rowRewrite (y : Int) (cb ca : List Nat) : List Nat :=
  cursorBytes (Go.int16 (y + 1)) 1 ++ emitCells 0 cb ca ++ [0x1b, 0x5b, 0x30, 0x6d]

/-- The two reads of row `y` (lines 260-277), with `l` cells asked for: the entry
`buf[y]`.  `none` is a console call that fails, or a panic: `&cbbuf[0]` for
`l = 0`, or the slices `cbbuf[:nr]`, `ca[:nr]` for `nr` above `l`. -/
def readRow (scr : Screen) (csbi : consoleScreenBufferInfo) (l : Nat) (y : Nat) :
    Option charInfo :=
  if l = 0 then none
  else
    let xy : coord := { x := csbi.window.left, y := Go.int16 (csbi.window.top + y) }
    match scr.readChars xy l, scr.readAttrs xy l with
    | some cs, some as =>
      if l < cs.length ∨ l < as.length then none
      else some { buf := Go.utf16Decode cs, att := as }
    | _, _ => none

/-- The body of the row loop for row `y` (lines 260-302), with `l` cells asked for.
The result is the entry `buf[y]` and the bytes appended to `bb`; `none` is a
console call that fails or a run-time panic.  The attribute buffer `ca` has `l`
entries, zero after those read. -/
def row (scr : Screen) (csbi : consoleScreenBufferInfo) (l : Nat) (oldbuf : List charInfo)
    (y : Nat) : Option (charInfo × List Nat) :=
  match readRow scr csbi l y with
  | none => none
  | some ci =>
    let ca := ci.att ++ List.replicate (l - ci.att.length) 0
    let diff : Option Bool :=
      if oldbuf.length > 0 then
        match oldbuf.get? y with
        | none => none
        | some o => rowDiff ci.buf ca o.buf o.att
      else some true
    match diff with
    | none => none
    | some false => some (ci, [])
    | some true => some (ci, rowRewrite y ci.buf ca)

/-- The row loop `for y := short(0); y < size.y+1; y++` with `k` rows still to go. -/
def rows (scr : Screen) (csbi : consoleScreenBufferInfo) (l : Nat) (oldbuf : List charInfo) :
    Nat → Nat → Option (List charInfo × List Nat)
  | 0, _ => some ([], [])
  | k + 1, y =>
    match row scr csbi l oldbuf y with
    | none => none
    | some (ci, bytes) =>
      match rows scr csbi l oldbuf k (y + 1) with
      | none => none
      | some (cis, more) => some (ci :: cis, bytes ++ more)

/-- The bytes appended after the rows (lines 304-313): the cursor position when it
changed, the visibility escape when it changed. -/
def tailBytes (st : Retained) (curpos : coord) (curvis : Bool) : List Nat :=
  (if st.oldcurpos.x ≠ curpos.x ∨ st.oldcurpos.y ≠ curpos.y then
      cursorBytes (Go.int16 (curpos.y + 1)) (Go.int16 (curpos.x + 1)) else [])
  ++ (if st.oldcurvis ≠ curvis then
        (if curvis then [0x1b, 0x5b, 0x3e, 0x35, 0x6c] else [0x1b, 0x5b, 0x3e, 0x35, 0x68])
      else [])

/-- The cursor position relative to the window (lines 237-240). -/
def curposOf (csbi : consoleScreenBufferInfo) : coord :=
  { x := Go.int16 (csbi.cursorPosition.x - csbi.window.left),
    y := Go.int16 (csbi.cursorPosition.y - csbi.window.top) }

/-- The number `l` of cells read per row (line 254): `uint32(size.x + 1)`. -/
def cellsPerRow (csbi : consoleScreenBufferInfo) : Nat :=
  Go.dword (Go.int16 ((getSize csbi.window).x + 1))

/-- One turn of the sampling loop after the tick (lines 233-321): `nanos` is the clock
when a frame is written, `st` the retained variables, `f` the recording so far.
The result is `none` when the loop is left (a console call fails) or the program
panics (also `make` with a negative length), otherwise the retained variables and
the recording after the turn. -/
def sample (scr : Screen) (nanos : Nat) (st : Retained) (f : List Nat) :
    Option (Retained × List Nat) :=
  match scr.info, scr.cursorInfo with
  | some csbi, some visible =>
    let curpos := curposOf csbi
    let size := getSize csbi.window
    let curvis : Bool := visible ≠ 0
    let oldbuf := if size.x ≠ st.oldsize.x ∨ size.y ≠ st.oldsize.y then [] else st.oldbuf
    if Go.int16 (size.y + 1) < 0 then none
    else
      match rows scr csbi (cellsPerRow csbi) oldbuf (Go.int16 (size.y + 1)).toNat 0 with
      | none => none
      | some (buf, rowBytes) =>
        let bb := rowBytes ++ tailBytes st curpos curvis
        if bb.length > 0 then
          some ({ oldsize := size, oldcurpos := curpos, oldcurvis := curvis, oldbuf := buf },
                writeBytes nanos f bb)
        else some ({ st with oldbuf := oldbuf }, f)
  | _, _ => none

/-- The sampling loop over the ticks that arrive before `quit`, each with the clock
and the answers of the console at that tick. -/
def recordLoop : List (Nat × Screen) → Retained → List Nat → List Nat
  | [], _, f => f
  | tick :: ticks, st, f =>
    match sample tick.2 tick.1 st f with
    | none => f
    | some r => recordLoop ticks r.1 r.2

/-- The function `record`: the recording written.  The first frame is the
screen-clear escape; `first` is the answer to the first screen buffer query. -/
def record (nanos0 : Nat) (first : Option consoleScreenBufferInfo) (ticks : List (Nat × Screen)) :
    List Nat :=
  let f := writeBytes nanos0 [] [0x1b, 0x5b, 0x32, 0x4a]
  match first with
  | none => f
  | some _ =>
    recordLoop ticks
      { oldsize := { x := 0, y := 0 }, oldcurpos := { x := 0, y := 0 }, oldcurvis := false,
        oldbuf := [] } f

/-- A screen is a grid of cells when every glyph unit read from a row comes with the
attribute of its cell: the attribute read of a row delivers at least as many
entries as the character read. -/
def Screen.isGrid (scr : Screen) : Prop :=
  ∀ (xy : coord) (l : Nat) (cs as : List Nat),
    scr.readChars xy l = some cs → scr.readAttrs xy l = some as → cs.length ≤ as.length

/-- A row of `l` cells, each with one glyph and one attribute. -/
def charInfo.full (l : Nat) (ci : charInfo) : Prop :=
  ci.buf.length = l ∧ ci.att.length = l

instance (l : Nat) (ci : charInfo) : Decidable (ci.full l) := by
  unfold charInfo.full
  infer_instance

/-- The row bytes of a payload as the specification words them: going through the
rows from row `y` on in increasing order, each row whose cells differ from the
retained row is rewritten, and an unchanged row contributes no bytes. -/
def rewriteChanged : Nat → List charInfo → List charInfo → List Nat
  | y, n :: new, o :: old =>
    (if n ≠ o then rowRewrite y n.buf n.att else []) ++ rewriteChanged (y + 1) new old
  | _, _, _ => []

end ttyrec

/-! ## The player: frame reader (`ttyplay/ttyplay.go`, lines 150-185) -/

namespace ttyplay

/-- The loop `for off < int(header[2]) { n, err := f.Read(data[off:]); ... }`.
Every turn of the loop that does not leave it reads at least one byte, so
`header2` turns are enough; `fuel` counts the turns.  The result is the rest of
the file, the buffer and the offset. -/
def readLoop (chunk : Nat) : Nat → List Nat → List Nat → Nat → Nat → List Nat × List Nat × Nat
  | 0, f, data, off, _ => (f, data, off)
  | fuel + 1, f, data, off, header2 =>
    if off < header2 then
      match Go.fileRead chunk f (data.length - off) with
      | none => (f, data, off)
      | some (got, rest) =>
        readLoop chunk fuel rest (Go.copyAt data off got) (off + got.length) header2
    else (f, data, off)

/-- Lines 169-185 of the player: the buffer `data` is allocated with room for the
pending bytes `lastbuf` and `header2` payload bytes, the pending bytes are copied
to its start, and the file is read while `off < header2`.  The result is the
buffer handed to the decoder and the rest of the file. -/
def readData (chunk : Nat) (lastbuf : List Nat) (header2 : Nat) (f : List Nat) :
    List Nat × List Nat :=
  let data := if lastbuf.length > 0 then lastbuf ++ List.replicate header2 0
              else List.replicate header2 0
  let off := if lastbuf.length > 0 then lastbuf.length else 0
  let r := readLoop chunk header2 f data off header2
  (r.2.1, r.1)

/-- The frame reader of the player: header, then payload.  The result is
`none` at the end of the recording (no full header), otherwise the three header
fields, the buffer handed to the decoder and the rest of the file. -/
def readFrame (chunk : Nat) (lastbuf : List Nat) (f : List Nat) :
    Option ((Nat × Nat × Nat) × List Nat × List Nat) :=
  match Go.readHeader f with
  | none => none
  | some (header, rest) =>
    let r := readData chunk lastbuf header.2.2 rest
    some (header, r.1, r.2)

end ttyplay

/-! ## The player: console capability, pacing and escape-sequence decoder
(`ttyplay/ttyplay.go`) -/

namespace ttyplay

def foregroundBlue : Nat := 0x1
def foregroundGreen : Nat := 0x2
def foregroundRed : Nat := 0x4
def foregroundIntensity : Nat := 0x8
def foregroundMask : Nat :=
  foregroundRed ||| foregroundBlue ||| foregroundGreen ||| foregroundIntensity
def backgroundBlue : Nat := 0x10
def backgroundGreen : Nat := 0x20
def backgroundRed : Nat := 0x40
def backgroundIntensity : Nat := 0x80
def backgroundMask : Nat :=
  backgroundRed ||| backgroundBlue ||| backgroundGreen ||| backgroundIntensity

/-- A call that the player issues to the console, with the arguments it passes:
the five `kernel32` procedures it calls for their effect, and `fmt.Print` of one
rune.  For `ScrollConsoleScreenBuffer` the arguments are the rectangle that
`move` designates, the destination, and the fill character and attribute. -/
inductive Call where
  | SetConsoleCursorPosition (xy : coord)
  | ScrollConsoleScreenBuffer (move : smallRect) (dest : coord) (ch : Nat) (attr : Nat)
  | FillConsoleOutputCharacter (ch : Nat) (count : Nat) (xy : coord)
  | FillConsoleOutputAttribute (attr : Nat) (count : Nat) (xy : coord)
  | SetConsoleTextAttribute (attr : Nat)
  | Print (c : Nat)
deriving DecidableEq, Repr

/-- The host console as the player sees it: what `GetConsoleScreenBufferInfo`
answers, and the calls issued so far, oldest first. -/
structure Console where
  csbi : consoleScreenBufferInfo
  calls : List Call
deriving DecidableEq, Repr

/-- The host's `SetConsoleCursorPosition`: the call fails (returns 0) for a position
outside the screen buffer and moves the cursor otherwise. -/
def Console.setCursorPosition (con : Console) (xy : coord) : Console × Bool :=
  if 0 ≤ xy.x ∧ xy.x < con.csbi.size.x ∧ 0 ≤ xy.y ∧ xy.y < con.csbi.size.y then
    ({ csbi := { con.csbi with cursorPosition := xy },
       calls := con.calls ++ [Call.SetConsoleCursorPosition xy] }, true)
  else
    ({ con with calls := con.calls ++ [Call.SetConsoleCursorPosition xy] }, false)

/-- The host's `SetConsoleTextAttribute`: the current attribute becomes `attr`. -/
def Console.setTextAttribute (con : Console) (attr : Nat) : Console :=
  { csbi := { con.csbi with attributes := attr },
    calls := con.calls ++ [Call.SetConsoleTextAttribute attr] }

/-- A call that changes cells only (scroll, fill): the screen buffer info stays. -/
def Console.cells (con : Console) (c : Call) : Console :=
  { con with calls := con.calls ++ [c] }

/-- The call `fmt.Print(string(c))`: the rune goes to the console, whose reaction
(cursor advance, wrap, native scroll) is the host function `echo`. -/
def Console.print (echo : consoleScreenBufferInfo → Nat → consoleScreenBufferInfo)
    (con : Console) (c : Nat) : Console :=
  { csbi := echo con.csbi c, calls := con.calls ++ [Call.Print c] }

/-- What the player is run with: the flags `-n` and `-s`, the charset decoder chosen
by `-e`, and the host behaviours the player depends on.
`decode data` is the sequence of runes that
`dec.NewReader(bytes.NewBuffer(data))` delivers before its first error;
`chunk` bounds a short read of the recording; `echo` is the reaction of the
console to a printed rune; `int64OfBig` is what the platform's conversion of a
`float64` to `int64` delivers for a value that `int64` cannot hold. -/
structure Env where
  flag_n : Bool
  flag_s : Go.Float64
  decode : List Nat → List Nat
  chunk : Nat
  echo : consoleScreenBufferInfo → Nat → consoleScreenBufferInfo
  int64OfBig : Go.Float64 → Int

/-- Line 159: the duration `time.Duration(float64(d) / *flag_s) * time.Microsecond`
that the timer is reset to for a timestamp difference `d`, in nanoseconds: the
`float64` quotient, converted to `int64`, times 1000 in `int64`.  A timer reset
to a duration that is not positive expires at once, a wait of 0. -/
def timerWait (int64OfBig : Go.Float64 → Int) (flag_s : Go.Float64) (d : Nat) : Nat :=
  (Go.int64 (Go.int64OfFloat int64OfBig (Go.divNat d flag_s) * 1000)).toNat

/-- The variables of `main` that live across frames: `t`, `lastbuf`, `scroll`, the
console, and the timer waits so far (one entry per frame read: `none` when the
timer was not armed, `some w` when it was reset to `w`, in the unit of the
computation of line 159, nanoseconds in `main`). -/
structure State where
  t : Nat
  lastbuf : List Nat
  scroll : Option smallRect
  con : Console
  waits : List (Option Nat)
deriving DecidableEq, Repr

/-- Lines 156-167: the pacing of one frame with header fields `h0`, `h1`.  The result
is the wait and the new value of `t`; `cur` and `cur - t` are `uint32`.  The
function `speed` is the computation of line 159 on the difference `cur - t`; the
main loop passes `timerWait` with its flag `-s`. -/
def pace (flag_n : Bool) (speed : Nat → Nat) (t h0 h1 : Nat) : Option Nat × Nat :=
  if !flag_n then
    let cur := Go.uint32 (h0 * 1000000 + h1)
    ((if t ≠ 0 then some (speed (Go.uint32 (cur + 4294967296 - t))) else none), cur)
  else (none, t)

/-- The inner loop of `case 0x5b`: runes are collected in `buf` up to a final letter
or `@`.  The result is the final rune with the runes after it, or `none` when the
buffer ends first, and the bytes collected. -/
def collectCSI : List Nat → List Nat → Option (Nat × List Nat) × List Nat
  | [], buf => (none, buf)
  | c :: cs, buf =>
    if (97 ≤ c ∧ c ≤ 122) ∨ (65 ≤ c ∧ c ≤ 90) ∨ c = 64 then (some (c, cs), buf)
    else collectCSI cs (buf ++ Go.utf8Encode c)

/-- The inner loop of `case 0x5d`: runes are collected in `buf` up to a `;`. -/
def collectOSC : List Nat → List Nat → Option (List Nat) × List Nat
  | [], buf => (none, buf)
  | c :: cs, buf =>
    if c = 59 then (some cs, buf) else collectOSC cs (buf ++ Go.utf8Encode c)

/-- The `switch` of `case 'm'` for one number `n`: the new value of `attr`. -/
def sgr (attr_old : Nat) (attr : Nat) (n : Int) : Nat :=
  if n = 0 ∨ n = 100 then attr_old
  else if 1 ≤ n ∧ n ≤ 5 then attr ||| foregroundIntensity
  else if n = 7 then ((attr &&& foregroundMask) <<< 4) ||| ((attr &&& backgroundMask) >>> 4)
  else if 22 = n ∨ n = 25 ∨ n = 25 then attr ||| foregroundIntensity
  else if n = 27 then ((attr &&& foregroundMask) <<< 4) ||| ((attr &&& backgroundMask) >>> 4)
  else if 30 ≤ n ∧ n ≤ 37 then
    let a0 := attr &&& backgroundMask
    let a1 := if (n - 30).toNat &&& 1 ≠ 0 then a0 ||| foregroundRed else a0
    let a2 := if (n - 30).toNat &&& 2 ≠ 0 then a1 ||| foregroundGreen else a1
    if (n - 30).toNat &&& 4 ≠ 0 then a2 ||| foregroundBlue else a2
  else if 40 ≤ n ∧ n ≤ 47 then
    let a0 := attr &&& foregroundMask
    let a1 := if (n - 40).toNat &&& 1 ≠ 0 then a0 ||| backgroundRed else a0
    let a2 := if (n - 40).toNat &&& 2 ≠ 0 then a1 ||| backgroundGreen else a1
    if (n - 40).toNat &&& 4 ≠ 0 then a2 ||| backgroundBlue else a2
  else attr

/-- One turn of the loop over `strings.Split(cs, ";")` in `case 'm'`: a piece that
`strconv.Atoi` accepts changes `attr` and is pushed to the console. -/
def sgrToken (attr_old : Nat) (acc : Nat × Console) (ns : List Nat) : Nat × Console :=
  match Go.Atoi ns with
  | none => acc
  | some n => (sgr attr_old acc.1 n, acc.2.setTextAttribute (sgr attr_old acc.1 n))

/-- The handler `case 'm'`. -/
def case_m (attr_old : Nat) (buf : List Nat) (con : Console) : Console :=
  if buf.isEmpty then con.setTextAttribute attr_old
  else ((Go.Split buf 59).foldl (sgrToken attr_old) (con.csbi.attributes, con)).2

/-- The handler `case 'h'`: the body runs when `Sscanf` fails, with `n` still 0. -/
def case_h (buf : List Nat) (con : Console) : Console :=
  match Go.Sscanf_d 64 buf with
  | some _ => con
  | none =>
    let n : Int := 0
    if n = 47 then
      (con.setCursorPosition { y := con.csbi.window.top, x := con.csbi.window.left }).1
    else con

/-- The handler `case '@'`; the flag is false when a console call failed. -/
def case_at (buf : List Nat) (con : Console) : Console × Bool :=
  let csbi := con.csbi
  let n : Int := match Go.Sscanf_d 64 buf with
    | none => 1
    | some v => v
  let move : smallRect :=
    { top := csbi.cursorPosition.y, bottom := csbi.cursorPosition.y,
      left := csbi.cursorPosition.x, right := Go.int16 (csbi.size.x - Go.int16 n) }
  let xy : coord :=
    { x := Go.int16 (csbi.cursorPosition.x + Go.int16 n), y := csbi.cursorPosition.y }
  let con1 := con.cells (Call.ScrollConsoleScreenBuffer move xy 32 csbi.attributes)
  con1.setCursorPosition csbi.cursorPosition

/-- The handlers `case 'A'`, `'B'`, `'C'`, `'D'`: `dx`, `dy` give the direction. -/
def case_move (dx dy : Int) (buf : List Nat) (con : Console) : Console × Bool :=
  let csbi := con.csbi
  let n : Int := match Go.Sscanf_d 64 buf with
    | none => 1
    | some v => Go.int16 v
  con.setCursorPosition
    { x := Go.int16 (csbi.cursorPosition.x + dx * n),
      y := Go.int16 (csbi.cursorPosition.y + dy * n) }

/-- The two fill calls of `case 'J'` and `case 'K'`. -/
def fill (con : Console) (count : Nat) (cursor : coord) : Console × Bool :=
  (((con.cells (Call.FillConsoleOutputCharacter 32 count cursor)).cells
      (Call.FillConsoleOutputAttribute con.csbi.attributes count cursor)), true)

/-- The cells that the host writes for a fill call of `count` cells from `xy` in a
screen buffer `width` cells wide: consecutive cells, going on at the start of the
next row at the end of a row. -/
def filledCells (width : Int) (count : Nat) (xy : coord) : List coord :=
  (List.range count).map fun (i : Nat) =>
    ({ x := (xy.y * width + xy.x + (i : Int)) % width,
       y := (xy.y * width + xy.x + (i : Int)) / width } : coord)

/-- The handler `case 'J'`. -/
def case_J (buf : List Nat) (con : Console) : Console × Bool :=
  let csbi := con.csbi
  let n : Int := match Go.Sscanf_d 64 buf with
    | none => 0
    | some v => v
  if n = 0 then
    fill con
      (Go.dword (Go.int16 (csbi.size.x - csbi.cursorPosition.x
        + (csbi.size.y - csbi.cursorPosition.y) * csbi.size.x)))
      { x := csbi.cursorPosition.x, y := csbi.cursorPosition.y }
  else if n = 1 then
    fill con
      (Go.dword (Go.int16 (csbi.cursorPosition.x + (csbi.cursorPosition.y - 1) * csbi.size.x)))
      { x := csbi.window.left, y := csbi.window.top }
  else if n = 2 then
    fill con (Go.dword (Go.int16 (csbi.size.x * csbi.size.y)))
      { x := csbi.window.left, y := csbi.window.top }
  else (con, true)

/-- The handler `case 'K'`. -/
def case_K (buf : List Nat) (con : Console) : Console × Bool :=
  let csbi := con.csbi
  let n : Int := match Go.Sscanf_d 64 buf with
    | none => 0
    | some v => v
  if n = 0 then
    fill con (Go.dword (Go.int16 (csbi.size.x - csbi.cursorPosition.x)))
      { x := csbi.cursorPosition.x, y := csbi.cursorPosition.y }
  else if n = 1 then
    fill con (Go.dword csbi.cursorPosition.x)
      { x := csbi.window.left, y := Go.int16 (csbi.window.top + csbi.cursorPosition.y) }
  else if n = 2 then
    fill con (Go.dword csbi.size.x)
      { x := csbi.window.left, y := Go.int16 (csbi.window.top + csbi.cursorPosition.y) }
  else (con, true)

/-- The handler `case 'H'`; the result of the console call is not looked at. -/
def case_H (buf : List Nat) (con : Console) : Console :=
  let csbi := con.csbi
  let vals := Go.Sscanf_d_d 16 buf
  let y0 : Int := vals.getD 0 0
  let x0 : Int := vals.getD 1 0
  let y1 := if vals.length = 1 ∨ vals.length = 2 then Go.int16 (y0 - 1) else y0
  let x1 := if vals.length = 2 then Go.int16 (x0 - 1) else x0
  (con.setCursorPosition
    { x := Go.int16 (x1 + csbi.window.left), y := Go.int16 (y1 + csbi.window.top) }).1

/-- The handler `case 'r'`: the new value of `scroll`.  `Sscanf` stores its first
number in `scroll.top` and its second in `scroll.left`, which the next statement
overwrites. -/
def case_r (buf : List Nat) (csbi : consoleScreenBufferInfo) : Option smallRect :=
  let vals := Go.Sscanf_d_d 16 buf
  let scanned : smallRect := { left := vals.getD 1 0, top := vals.getD 0 0, right := 0, bottom := 0 }
  let scroll : smallRect :=
    { scanned with left := csbi.window.left, right := csbi.window.right }
  if vals.length = 0 then none
  else if vals.length = 1 then some { scroll with top := Go.int16 (scroll.top - 1) }
  else if vals.length = 2 then some { scroll with bottom := Go.int16 (scroll.bottom - 1) }
  else some scroll

/-- The `switch m` of the decoder (lines 283-533): final rune `m`, parameter bytes
`buf`; `m = 0` when the rune after ESC was neither `[` nor `]`.  The flag is false
when the handler leaves the main loop (`break loop`). -/
def dispatch (attr_old : Nat) (m : Nat) (buf : List Nat) (st : State) : State × Bool :=
  if m = 104 then ({ st with con := case_h buf st.con }, true)
  else if m = 64 then ({ st with con := (case_at buf st.con).1 }, (case_at buf st.con).2)
  else if m = 109 then ({ st with con := case_m attr_old buf st.con }, true)
  else if m = 65 then
    ({ st with con := (case_move 0 (-1) buf st.con).1 }, (case_move 0 (-1) buf st.con).2)
  else if m = 66 then
    ({ st with con := (case_move 0 1 buf st.con).1 }, (case_move 0 1 buf st.con).2)
  else if m = 67 then
    ({ st with con := (case_move 1 0 buf st.con).1 }, (case_move 1 0 buf st.con).2)
  else if m = 68 then
    ({ st with con := (case_move (-1) 0 buf st.con).1 }, (case_move (-1) 0 buf st.con).2)
  else if m = 74 then ({ st with con := (case_J buf st.con).1 }, (case_J buf st.con).2)
  else if m = 75 then ({ st with con := (case_K buf st.con).1 }, (case_K buf st.con).2)
  else if m = 72 then ({ st with con := case_H buf st.con }, true)
  else if m = 114 then ({ st with scroll := case_r buf st.con.csbi }, true)
  else (st, true)

/-- The handler `case c1 == 0x0a` (lines 208-231).  In the first branch `move := scroll`
copies the pointer, so `move.top++` increments the top of the scroll region itself,
and `xy.y` is read from `scroll.top` after the increment. -/
def lineFeed (echo : consoleScreenBufferInfo → Nat → consoleScreenBufferInfo)
    (st : State) : State × Bool :=
  let csbi := st.con.csbi
  let atBottom : Bool := match st.scroll with
    | some sc => csbi.cursorPosition.y = sc.bottom
    | none => false
  match st.scroll, atBottom with
  | some sc, true =>
    let move : smallRect := { sc with top := Go.int16 (sc.top + 1) }
    let xy : coord := { x := 0, y := move.top }
    ({ st with scroll := some move,
               con := st.con.cells (Call.ScrollConsoleScreenBuffer move xy 32 csbi.attributes) },
      true)
  | _, _ =>
    if csbi.cursorPosition.y < csbi.window.bottom then
      let r := st.con.setCursorPosition
        { x := csbi.cursorPosition.x, y := Go.int16 (csbi.cursorPosition.y + 1) }
      ({ st with con := r.1 }, r.2)
    else ({ st with con := st.con.print echo 0x0a }, true)

/-- The handling of a rune `c1` other than ESC (lines 199-238). -/
def plain (echo : consoleScreenBufferInfo → Nat → consoleScreenBufferInfo)
    (c1 : Nat) (st : State) : State × Bool :=
  let csbi := st.con.csbi
  if c1 = 0x08 then
    let x := if csbi.cursorPosition.x > 0 then Go.int16 (csbi.cursorPosition.x - 1)
             else csbi.cursorPosition.x
    let r := st.con.setCursorPosition { x := x, y := csbi.cursorPosition.y }
    ({ st with con := r.1 }, r.2)
  else if c1 = 0x0a then lineFeed echo st
  else if c1 = 13 ∨ c1 = 9 ∨ c1 ≥ 0x20 then ({ st with con := st.con.print echo c1 }, true)
  else (st, true)

/-- The loop `parse` (lines 188-534) over the runes of one buffer.  Every turn takes
at least one rune, so `fuel` above the number of runes is never used up.  The
flag of the result is false when the main loop is left (`break loop`). -/
def parseLoop (echo : consoleScreenBufferInfo → Nat → consoleScreenBufferInfo)
    (attr_old : Nat) : Nat → List Nat → State → State × Bool
  | 0, _, st => (st, true)
  | _ + 1, [], st => (st, true)
  | fuel + 1, c1 :: rs, st =>
    if c1 ≠ 0x1b then
      let r := plain echo c1 st
      if r.2 then parseLoop echo attr_old fuel rs r.1 else (r.1, false)
    else
      match rs with
      | [] => ({ st with lastbuf := st.lastbuf ++ Go.utf8Encode c1 }, true)
      | c2 :: rs2 =>
        if c2 = 0x5b then
          match collectCSI rs2 [] with
          | (none, buf) =>
            ({ st with lastbuf := st.lastbuf ++ Go.utf8Encode c1 ++ [0x5b] ++ buf }, true)
          | (some (m, rest), buf) =>
            let r := dispatch attr_old m buf st
            if r.2 then parseLoop echo attr_old fuel rest r.1 else (r.1, false)
        else if c2 = 0x5d then
          match collectOSC rs2 [] with
          | (none, buf) => ({ st with lastbuf := st.lastbuf ++ buf }, true)
          | (some rest, _) => parseLoop echo attr_old fuel rest st
        else
          let r := dispatch attr_old 0 [] st
          if r.2 then parseLoop echo attr_old fuel rs2 r.1 else (r.1, false)

/-- The loop `parse` on the runes of one buffer. -/
def parse (echo : consoleScreenBufferInfo → Nat → consoleScreenBufferInfo)
    (attr_old : Nat) (runes : List Nat) (st : State) : State × Bool :=
  parseLoop echo attr_old (runes.length + 1) runes st

/-- One turn of the main loop after a header was read (lines 156-534): pacing, the
payload read with the pending bytes in front, `lastbuf.Reset()`, decoding.  The
result is the state, the rest of the file, and whether the loop goes on. -/
def frame (env : Env) (attr_old : Nat) (header : Nat × Nat × Nat) (rest : List Nat)
    (st : State) : State × List Nat × Bool :=
  let p := pace env.flag_n (timerWait env.int64OfBig env.flag_s) st.t header.1 header.2.1
  let d := readData env.chunk st.lastbuf header.2.2 rest
  let st1 : State := { st with t := p.2, waits := st.waits ++ [p.1], lastbuf := [] }
  let r := parse env.echo attr_old (env.decode d.1) st1
  (r.1, d.2, r.2)

/-- The main loop `loop` (lines 148-535), for a run in which no interrupt arrives.
Every turn takes the twelve bytes of a header, so `fuel` above the length of the
file is never used up. -/
def mainLoop (env : Env) (attr_old : Nat) : Nat → List Nat → State → State
  | 0, _, st => st
  | fuel + 1, f, st =>
    match Go.readHeader f with
    | none => st
    | some (header, rest) =>
      let r := frame env attr_old header rest st
      if r.2.2 then mainLoop env attr_old fuel r.2.1 r.1 else r.1

/-- The function `main` of the player on a recording `f` and a console `con`:
the state when the main loop is left, followed by the deferred restoration of the
attribute captured at the start. -/
def main (env : Env) (con : Console) (f : List Nat) : State :=
  let attr_old := con.csbi.attributes
  let st := mainLoop env attr_old (f.length + 1) f
    { t := 0, lastbuf := [], scroll := none, con := con, waits := [] }
  { st with con := st.con.setTextAttribute attr_old }

end ttyplay

/-! ## The duration tool (`ttytime/ttytime.go`) -/

namespace ttytime

/-- The call `binary.Read(f, binary.LittleEndian, &h)` for `h : [3]int32` on the bytes
from the file position on: the three fields, or `none` for an error (fewer than
twelve bytes left). -/
def readHeader (f : List Nat) : Option (Int × Int × Int) :=
  match Go.readHeader f with
  | none => none
  | some (h, _) => some (Go.int32 h.1, Go.int32 h.2.1, Go.int32 h.2.2)

/-- The call `f.Seek(off, os.SEEK_CUR)` at position `pos`: the new position.  A seek
to a negative position is an error, which the tool does not look at, and leaves
the position where it is; a position past the end of the file is allowed. -/
def seek (pos : Nat) (off : Int) : Nat :=
  if 0 ≤ (pos : Int) + off then ((pos : Int) + off).toNat else pos

/-- What `calc_time` ends with: a value, an error, or still in its loop when the
fuel is used up. -/
inductive Outcome where
  | value (n : Int)
  | error
  | running
deriving DecidableEq, Repr

/-- The loop of `calc_time` (lines 31-43): `bytes` is the whole file, `pos` the file
position, `e` the variable `end`.  The result is `end` when the loop is left, and
`none` when `fuel` turns did not leave it. -/
def calcLoop (bytes : List Nat) : Nat → Nat → (Int × Int × Int) → Option (Int × Int × Int)
  | 0, _, _ => none
  | fuel + 1, pos, e =>
    match readHeader (bytes.drop pos) with
    | none => some e
    | some h => calcLoop bytes fuel (seek (pos + 12) h.2.2) h

/-- The function `calc_time`: `file` is the content of the named file, `none` when
it cannot be opened.  `start` and `end` are `[3]int32`, and `end` starts as zero. -/
def calc_time (fuel : Nat) (file : Option (List Nat)) : Outcome :=
  match file with
  | none => Outcome.error
  | some bytes =>
    match readHeader bytes with
    | none => Outcome.error
    | some start =>
      match calcLoop bytes fuel (seek 12 start.2.2) (0, 0, 0) with
      | none => Outcome.running
      | some e => Outcome.value (Go.int32 (e.1 - start.1))

end ttytime

/-! ## Concrete runs: a recording, flags and a console to evaluate the programs on -/

namespace Run

/-- A frame of the recording format: seconds, microseconds, payload. -/
def frame (sec usec : Nat) (payload : List Nat) : List Nat :=
  Go.putUint32 sec ++ Go.putUint32 usec ++ Go.putUint32 payload.length ++ payload

/-- A recording: the frames of a list of (seconds, microseconds, payload), in order. -/
def recording : List (Nat × Nat × List Nat) → List Nat
  | [] => []
  | fr :: frs => frame fr.1 fr.2.1 fr.2.2 ++ recording frs

/-- The decoder of a single-byte charset in which every byte is the rune of the same
value (`-e latin1`); on 7-bit input the default UTF-8 decoder delivers the same. -/
def latin1 (data : List Nat) : List Nat := data

/-- A console that moves the cursor one column to the right for a printed rune. -/
def echoRight (c : consoleScreenBufferInfo) (_ : Nat) : consoleScreenBufferInfo :=
  { c with cursorPosition := { c.cursorPosition with x := c.cursorPosition.x + 1 } }

/-- The conversion of a `float64` outside `int64` on amd64: the smallest `int64`. -/
def int64OfBig (_ : Go.Float64) : Int := -9223372036854775808

/-- The player run at the default speed 1.0, with pacing, on a regular file (a read
delivers all the bytes asked for). -/
def env : ttyplay.Env :=
  { flag_n := false, flag_s := Go.Float64.finite false 1 0, decode := latin1,
    chunk := 4294967296, echo := echoRight, int64OfBig := int64OfBig }

/-- The player run as `env`, at the speed factor `s` (flag `-s`). -/
def envSpeed (s : Go.Float64) : ttyplay.Env := { env with flag_s := s }

/-- A console of 80 columns and 300 buffer rows, window rows 0 to 24, the cursor at
column `x` and row `y`, current attribute `attr`, no call issued yet. -/
def console (x y : Int) (attr : Nat) : ttyplay.Console :=
  { csbi := { size := { x := 80, y := 300 }, cursorPosition := { x := x, y := y },
              attributes := attr, window := { left := 0, top := 0, right := 79, bottom := 24 },
              maximumWindowSize := { x := 80, y := 25 } },
    calls := [] }

/-- A console of 80 columns and 300 buffer rows after output has scrolled: the window
shows the buffer rows 5 to 29; the cursor is at column `x` and buffer row `y`. -/
def scrolledConsole (x y : Int) (attr : Nat) : ttyplay.Console :=
  { csbi := { size := { x := 80, y := 300 }, cursorPosition := { x := x, y := y },
              attributes := attr, window := { left := 0, top := 5, right := 79, bottom := 29 },
              maximumWindowSize := { x := 80, y := 25 } },
    calls := [] }

/-- A console window of 2 columns and 4 rows for the recorder, cursor at the top
left. -/
def csbi : consoleScreenBufferInfo :=
  { size := { x := 2, y := 4 }, cursorPosition := { x := 0, y := 0 }, attributes := 7,
    window := { left := 0, top := 0, right := 1, bottom := 3 },
    maximumWindowSize := { x := 2, y := 4 } }

/-- A screen of that window: every row reads `AB` in attribute 7, except row 3, which
reads `AC`; the cursor is visible. -/
def screen : ttyrec.Screen :=
  { info := some csbi,
    cursorInfo := some 1,
    readChars := fun xy l => if xy.y = 3 then some ([65, 67].take l) else some ([65, 66].take l),
    readAttrs := fun _ l => some ([7, 7].take l) }

/-- The rows of `screen`. -/
def newRows : List ttyrec.charInfo :=
  [{ buf := [65, 66], att := [7, 7] }, { buf := [65, 66], att := [7, 7] },
   { buf := [65, 66], att := [7, 7] }, { buf := [65, 67], att := [7, 7] }]

/-- Retained variables of the recorder for the same window with `AB` on every row. -/
def retained : ttyrec.Retained :=
  { oldsize := { x := 1, y := 3 }, oldcurpos := { x := 0, y := 0 }, oldcurvis := true,
    oldbuf := [{ buf := [65, 66], att := [7, 7] }, { buf := [65, 66], att := [7, 7] },
               { buf := [65, 66], att := [7, 7] }, { buf := [65, 66], att := [7, 7] }] }

/-- A console window of 3 columns and 1 row, cursor at the top left. -/
def wideCsbi : consoleScreenBufferInfo :=
  { size := { x := 3, y := 1 }, cursorPosition := { x := 0, y := 0 }, attributes := 7,
    window := { left := 0, top := 0, right := 2, bottom := 0 },
    maximumWindowSize := { x := 3, y := 1 } }

/-- A screen of that window whose row holds a double-width glyph (U+3042) and `A`:
the character read delivers two units for the three cells, the attribute read
three attributes (0x0100 and 0x0200 flag the two halves of the wide glyph); the
cell of `A` has attribute 7. -/
def wideScreen : ttyrec.Screen :=
  { info := some wideCsbi,
    cursorInfo := some 1,
    readChars := fun _ l => some ([0x3042, 65].take l),
    readAttrs := fun _ l => some ([0x0107, 0x0207, 7].take l) }

/-- Retained variables for that window with the same glyphs, the cell of `A` in
attribute 1. -/
def wideRetained : ttyrec.Retained :=
  { oldsize := { x := 2, y := 0 }, oldcurpos := { x := 0, y := 0 }, oldcurvis := true,
    oldbuf := [{ buf := [0x3042, 65], att := [0x0107, 0x0207, 1] }] }

/-- The retained variables after a sample of `screen`. -/
def sampled : ttyrec.Retained :=
  { oldsize := { x := 1, y := 3 }, oldcurpos := { x := 0, y := 0 }, oldcurvis := true,
    oldbuf := newRows }

end Run

/-! ## Frame codec: lemmas -/

theorem Go.getUint32_putUint32 (v : Nat) (h : v < 4294967296) :
    Go.getUint32 (v % 256) (v / 256 % 256) (v / 65536 % 256) (v / 16777216 % 256) = v := by
  unfold Go.getUint32 Go.uint32
  omega

theorem Go.readHeader_put (a b c : Nat) (rest : List Nat)
    (ha : a < 4294967296) (hb : b < 4294967296) (hc : c < 4294967296) :
    Go.readHeader (Go.putUint32 a ++ Go.putUint32 b ++ Go.putUint32 c ++ rest)
      = some ((a, b, c), rest) := by
  simp only [Go.putUint32, List.cons_append, List.nil_append, Go.readHeader,
    Go.getUint32_putUint32 _ ha, Go.getUint32_putUint32 _ hb, Go.getUint32_putUint32 _ hc]

theorem ttyplay.readLoop_payload (chunk : Nat) (b rest : List Nat) :
    ∀ (fuel off : Nat), off ≤ b.length → b.length - off ≤ fuel →
      ttyplay.readLoop chunk fuel (b.drop off ++ rest)
        (b.take off ++ List.replicate (b.length - off) 0) off b.length
        = (rest, b, b.length) := by
  intro fuel
  induction fuel with
  | zero =>
    intro off h1 h2
    have h : off = b.length := by omega
    subst h
    simp [ttyplay.readLoop]
  | succ fuel ih =>
    intro off h1 h2
    by_cases hlt : off < b.length
    · have hne : (b.drop off ++ rest).isEmpty = false := by
        cases hd : b.drop off with
        | nil =>
          have := congrArg List.length hd
          simp at this
          omega
        | cons x xs => simp
      have hlen : (b.take off ++ List.replicate (b.length - off) 0).length - off
          = b.length - off := by
        simp [List.length_take]
        omega
      have hroom : b.length - off ≠ 0 := by omega
      set n := min (b.length - off) (max chunk 1) with hn
      have hn1 : 1 ≤ n := by
        rw [hn]
        have : 1 ≤ max chunk 1 := le_max_right _ _
        omega
      have hn2 : n ≤ b.length - off := by
        rw [hn]
        exact min_le_left _ _
      have htake : (b.drop off ++ rest).take n = (b.drop off).take n := by
        apply List.take_append_of_le_length
        simp
        omega
      have hdrop : (b.drop off ++ rest).drop n = b.drop (off + n) ++ rest := by
        rw [List.drop_append_of_le_length (by simp; omega), List.drop_drop]
      have hgot : ((b.drop off).take n).length = n := by
        simp [List.length_take]
        omega
      have hcopy : Go.copyAt (b.take off ++ List.replicate (b.length - off) 0) off
          ((b.drop off).take n)
          = b.take (off + n) ++ List.replicate (b.length - (off + n)) 0 := by
        unfold Go.copyAt
        rw [hgot]
        have e1 : (b.take off ++ List.replicate (b.length - off) 0).take off = b.take off := by
          rw [List.take_append_of_le_length (by simp [List.length_take]; omega)]
          simp [List.take_take]
        have e2 : (b.take off ++ List.replicate (b.length - off) 0).drop (off + n)
            = List.replicate (b.length - (off + n)) 0 := by
          have hl : (b.take off).length = off := by simp [List.length_take]; omega
          rw [List.drop_append_eq_append_drop, hl]
          have : List.drop (off + n) (List.take off b) = [] := by
            apply List.drop_eq_nil_of_le
            simp [List.length_take]
          rw [this]
          simp
          omega
        rw [e1, e2, List.take_add]
      rw [ttyplay.readLoop, if_pos hlt, hlen]
      simp only [Go.fileRead, if_neg hroom, hne, Bool.false_eq_true, if_false]
      rw [← hn, htake, hdrop, hgot, hcopy]
      exact ih (off + n) (by omega) (by omega)
    · have h : off = b.length := by omega
      subst h
      simp [ttyplay.readLoop]

/-- Claim C1 (frame round trip).  A frame written by the recorder's `writeBytes`
at any clock reading, with any payload shorter than 2^32 bytes, followed by any
further bytes `rest`, is read back by the player's frame reader (empty pending
buffer, any short-read size `chunk`): the header carries the seconds and the
microseconds that were written and the payload length, the buffer handed to the
decoder is exactly the payload, and the file is positioned at `rest`, the start of
the next frame. -/
theorem frame_round_trip (chunk nanos : Nat) (b rest : List Nat)
    (hb : b.length < 4294967296) :
    ttyplay.readFrame chunk [] (ttyrec.writeBytes nanos [] b ++ rest)
      = some ((Go.uint32 (nanos / 1000 / 1000000), nanos / 1000 % 1000000, b.length),
              b, rest) := by
  have h0 : Go.uint32 (nanos / 1000 / 1000000) < 4294967296 := by
    unfold Go.uint32; omega
  have h1 : Go.uint32 (nanos / 1000 % 1000000) = nanos / 1000 % 1000000 := by
    unfold Go.uint32; omega
  have h2 : Go.uint32 b.length = b.length := by
    unfold Go.uint32; omega
  have hh := Go.readHeader_put (Go.uint32 (nanos / 1000 / 1000000)) (nanos / 1000 % 1000000)
    b.length (b ++ rest) h0 (by omega) hb
  have hl := ttyplay.readLoop_payload chunk b rest b.length 0 (Nat.zero_le _) (by omega)
  simp only [List.drop_zero, List.take_zero, List.nil_append, Nat.sub_zero] at hl
  unfold ttyplay.readFrame ttyrec.writeBytes
  simp only [List.nil_append, List.append_assoc, h1, h2] at hh ⊢
  rw [hh]
  simp [ttyplay.readData, hl]

theorem frame_round_trip_witness :
    [0x1b, 0x5b, 0x32, 0x4a].length < 4294967296 ∧
    ttyplay.readFrame 1 [] (ttyrec.writeBytes 1383000944148480000 [] [0x1b, 0x5b, 0x32, 0x4a]
        ++ [7, 7, 7])
      = some ((Go.uint32 (1383000944148480000 / 1000 / 1000000),
               1383000944148480000 / 1000 % 1000000, 4),
              [0x1b, 0x5b, 0x32, 0x4a], [7, 7, 7]) :=
  ⟨by decide,
   frame_round_trip 1 1383000944148480000 [0x1b, 0x5b, 0x32, 0x4a] [7, 7, 7] (by decide)⟩

/-! ## The player: split escape sequences -/

/-- Claim C2 (boundary split), at the split point k = 3.  The recording holds the
sequence ESC [ 3 1 m as two frames, ESC [ 3 and 1 m, and is read from a regular
file.  The three pending bytes are not below the length 2 of the second payload,
so the read loop does not run: the buffer handed to the decoder is the pending
bytes followed by two zero bytes, the two payload bytes stay unread in the file,
and the only console call of the run is the restoration of the attribute at the
end.  Played as one frame, the same five bytes set the attribute to red (4), and
so do the splits at k = 1 and k = 2; the split at k = 4 fails like k = 3. -/
theorem boundary_split_after_three_bytes :
    ttyplay.readData 4294967296 [0x1b, 0x5b, 0x33] 2 [0x31, 0x6d]
      = ([0x1b, 0x5b, 0x33, 0, 0], [0x31, 0x6d])
    ∧ (ttyplay.main Run.env (Run.console 0 0 7)
        (Run.frame 100 0 [0x1b, 0x5b, 0x33] ++ Run.frame 100 5 [0x31, 0x6d])).con.calls
      = [ttyplay.Call.SetConsoleTextAttribute 7]
    ∧ (ttyplay.main Run.env (Run.console 0 0 7)
        (Run.frame 100 0 [0x1b, 0x5b, 0x33, 0x31, 0x6d])).con.calls
      = [ttyplay.Call.SetConsoleTextAttribute 4, ttyplay.Call.SetConsoleTextAttribute 7]
    ∧ (ttyplay.main Run.env (Run.console 0 0 7)
        (Run.frame 100 0 [0x1b] ++ Run.frame 100 5 [0x5b, 0x33, 0x31, 0x6d])).con.calls
      = [ttyplay.Call.SetConsoleTextAttribute 4, ttyplay.Call.SetConsoleTextAttribute 7]
    ∧ (ttyplay.main Run.env (Run.console 0 0 7)
        (Run.frame 100 0 [0x1b, 0x5b] ++ Run.frame 100 5 [0x33, 0x31, 0x6d])).con.calls
      = [ttyplay.Call.SetConsoleTextAttribute 4, ttyplay.Call.SetConsoleTextAttribute 7]
    ∧ (ttyplay.main Run.env (Run.console 0 0 7)
        (Run.frame 100 0 [0x1b, 0x5b, 0x33, 0x31] ++ Run.frame 100 5 [0x6d])).con.calls
      = [ttyplay.Call.SetConsoleTextAttribute 7] := by
  decide

/-! ## Attribute mapping: recorder to player -/

theorem ttyplay.land_bg_fg (x : Nat) :
    (x &&& ttyplay.backgroundMask) &&& ttyplay.foregroundMask = 0 := by
  rw [Nat.land_assoc]
  have h : ttyplay.backgroundMask &&& ttyplay.foregroundMask = 0 := by decide
  rw [h, Nat.and_zero]

theorem ttyrec.sgrBytes_black_fg (k : Nat) (hk : k < 8) :
    ttyrec.sgrBytes (16 * k)
      = [27, 91, 51, 48, 59, 52, ttyrec.bgToAnsi (16 * k) + 8, 109] := by
  interval_cases k <;> decide

/-- Claim C3, counterexample.  For the cell attribute 1 (blue on black) the recorder
emits ESC [ 20 ; 40 m; the player, with current attribute 7, leaves the console
attribute at 7.  For the cell attribute 12 (bright red on black) the recorder
emits ESC [ 31 ; 40 m and the player leaves the attribute at 4.  For the cell
attribute 0x80 (black on bright black) the recorder emits ESC [ 30 ; 40 m and
the player leaves the attribute at 0. -/
theorem sgr_round_trip_fails :
    (ttyplay.parse Run.echoRight 7 (ttyrec.sgrBytes 1)
        { t := 0, lastbuf := [], scroll := none, con := Run.console 0 0 7, waits := [] }
      ).1.con.csbi.attributes = 7
    ∧ (ttyplay.parse Run.echoRight 7 (ttyrec.sgrBytes 12)
        { t := 0, lastbuf := [], scroll := none, con := Run.console 0 0 7, waits := [] }
      ).1.con.csbi.attributes = 4
    ∧ (ttyplay.parse Run.echoRight 7 (ttyrec.sgrBytes 0x80)
        { t := 0, lastbuf := [], scroll := none, con := Run.console 0 0 7, waits := [] }
      ).1.con.csbi.attributes = 0 := by
  decide

/-- Claim C3, amended.  For every cell attribute `a` whose foreground nibble is 0 and
whose background nibble is below 8, every state of the player (so every current
console attribute) and every attribute captured at the start, decoding the
sequence ESC [ fgToAnsi(a) ; bgToAnsi(a) m that the recorder emits for `a` leaves
the console attribute equal to `a`, and the decoder goes on. -/
theorem sgr_round_trip_black_fg
    (echo : consoleScreenBufferInfo → Nat → consoleScreenBufferInfo) (attr_old : Nat)
    (st : ttyplay.State) (a : Nat) (hfg : a % 16 = 0) (hbg : a / 16 < 8) :
    (ttyplay.parse echo attr_old (ttyrec.sgrBytes a) st).1.con.csbi.attributes = a
    ∧ (ttyplay.parse echo attr_old (ttyrec.sgrBytes a) st).2 = true := by
  obtain ⟨k, rfl⟩ : ∃ k, a = 16 * k := ⟨a / 16, by omega⟩
  have hk : k < 8 := by omega
  rw [ttyrec.sgrBytes_black_fg k hk]
  interval_cases k <;>
    simp [ttyplay.parse, ttyplay.parseLoop, ttyplay.collectCSI, Go.utf8Encode, ttyplay.dispatch,
      ttyplay.case_m, Go.Split, Go.splitAux, ttyplay.sgrToken, Go.Atoi, Go.digitsValue,
      ttyplay.sgr, ttyplay.Console.setTextAttribute, ttyplay.land_bg_fg, ttyrec.bgToAnsi,
      ttyplay.backgroundRed, ttyplay.backgroundGreen, ttyplay.backgroundBlue] <;>
    decide

theorem sgr_round_trip_black_fg_witness :
    (0x40 % 16 = 0 ∧ 0x40 / 16 < 8) ∧
    ((ttyplay.parse Run.echoRight 7 (ttyrec.sgrBytes 0x40)
        { t := 0, lastbuf := [], scroll := none, con := Run.console 3 4 0x1e, waits := [] }
      ).1.con.csbi.attributes = 0x40
    ∧ (ttyplay.parse Run.echoRight 7 (ttyrec.sgrBytes 0x40)
        { t := 0, lastbuf := [], scroll := none, con := Run.console 3 4 0x1e, waits := [] }
      ).2 = true) :=
  ⟨by decide,
   sgr_round_trip_black_fg Run.echoRight 7
     { t := 0, lastbuf := [], scroll := none, con := Run.console 3 4 0x1e, waits := [] }
     0x40 (by decide) (by decide)⟩

/-! ## Pacing -/

theorem Go.uint32_sub_wrap (a b : Nat) (hab : a ≤ b) (hd : b - a < 4294967296) :
    Go.uint32 (Go.uint32 b + 4294967296 - Go.uint32 a) = b - a := by
  unfold Go.uint32
  omega

/-! ## The player: line feed and scroll region -/

/-- Claim C7, at the scroll region of rows 5 to 10 with the cursor on row 10.  One
line feed issues one scroll call, and no cursor call; the rectangle moved is rows
6 to 10 as the claim has it, but the destination is row 6 and not row 5, and the
top of the scroll region kept by the player has become 6.  The same happens in a
run from the start: the payload ESC [ 0 r, line feed, with the cursor on row 0
sets the region to top -1, bottom 0 and scrolls row 0 to row 0. -/
theorem line_feed_at_region_bottom :
    ttyplay.parse Run.echoRight 7 [0x0a]
      { t := 0, lastbuf := [], scroll := some { left := 0, top := 5, right := 79, bottom := 10 },
        con := Run.console 0 10 7, waits := [] }
    = ({ t := 0, lastbuf := [],
         scroll := some { left := 0, top := 6, right := 79, bottom := 10 },
         con := { (Run.console 0 10 7) with
                  calls := [ttyplay.Call.ScrollConsoleScreenBuffer
                              { left := 0, top := 6, right := 79, bottom := 10 }
                              { x := 0, y := 6 } 32 7] },
         waits := [] }, true)
    ∧ (ttyplay.parse Run.echoRight 7 [0x1b, 0x5b, 0x30, 0x72]
        { t := 0, lastbuf := [], scroll := none, con := Run.console 0 0 7, waits := [] }).1.scroll
      = some { left := 0, top := -1, right := 79, bottom := 0 }
    ∧ (ttyplay.main Run.env (Run.console 0 0 7)
        (Run.frame 100 0 [0x1b, 0x5b, 0x30, 0x72, 0x0a])).con.calls
      = [ttyplay.Call.ScrollConsoleScreenBuffer
            { left := 0, top := 0, right := 79, bottom := 0 } { x := 0, y := 0 } 32 7,
         ttyplay.Call.SetConsoleTextAttribute 7] := by
  decide

/-- Claim C8, at the parameters 5;10 and 5;20.  An empty parameter string clears the
region and the single parameter 5 sets the top (to 4, bottom 0), with left and
right those of the window; with two parameters the second number is stored in
`left`, which the window bound then overwrites, so the bottom does not come from
it: it is -1 for 5;10 and for 5;20 alike. -/
theorem set_scroll_region_two_parameters :
    ttyplay.case_r [] (Run.console 0 0 7).csbi = none
    ∧ ttyplay.case_r [53] (Run.console 0 0 7).csbi
        = some { left := 0, top := 4, right := 79, bottom := 0 }
    ∧ ttyplay.case_r [53, 59, 49, 48] (Run.console 0 0 7).csbi
        = some { left := 0, top := 5, right := 79, bottom := -1 }
    ∧ ttyplay.case_r [53, 59, 50, 48] (Run.console 0 0 7).csbi
        = some { left := 0, top := 5, right := 79, bottom := -1 }
    ∧ (ttyplay.parse Run.echoRight 7 [0x1b, 0x5b, 53, 59, 49, 48, 114]
        { t := 0, lastbuf := [], scroll := none, con := Run.console 0 0 7, waits := [] }).1.scroll
        = some { left := 0, top := 5, right := 79, bottom := -1 } := by
  decide

/-! ## The duration tool -/

/-- Claim C9, at a recording of one frame (100 s, 0 us, three payload bytes).  The
last frame is the first one, so the claim has a duration of 0; `end` is never
assigned and `calc_time` returns 0 - 100.  With a second frame at (105, 500000)
it returns 5. -/
theorem calc_time_single_frame :
    ttytime.calc_time 8 (some (Run.frame 100 0 [0x1b, 0x5b, 0x32]))
      = ttytime.Outcome.value (-100)
    ∧ ttytime.calc_time 8
        (some (Run.frame 100 0 [0x1b, 0x5b, 0x32] ++ Run.frame 105 500000 [0x41]))
      = ttytime.Outcome.value 5 := by
  decide

/-! ## The attribute table -/

/-- Claim C10, at the attribute word 0x0107 (white on black, with the leading-byte
flag 0x0100 that the console sets on a double-width character).  `fgToAnsi` takes
the word modulo 16 and returns the table value 23; `bgToAnsi` divides the whole
word by 16, gets 16, past the table, and returns 0, outside 40..47. -/
theorem bgToAnsi_high_bits :
    ttyrec.fgToAnsi 0x0107 = 23 ∧ ttyrec.bgToAnsi 0x0007 = 40 ∧ ttyrec.bgToAnsi 0x0107 = 0 := by
  decide

/-! ## The recorder: screen-diff encoder -/

section Recorder

open ttyrec

theorem Go.utf16Decode_length_le : ∀ (n : Nat) (l : List Nat), l.length ≤ n →
    (Go.utf16Decode l).length ≤ l.length := by
  intro n
  induction n with
  | zero =>
    intro l h
    have : l = [] := List.length_eq_zero.mp (by omega)
    subst this
    simp [Go.utf16Decode]
  | succ n ih =>
    intro l h
    match l with
    | [] => simp [Go.utf16Decode]
    | [r] =>
      unfold Go.utf16Decode
      split <;> simp
    | r :: r2 :: rest =>
      have h1 := ih (r2 :: rest) (by simp at h ⊢; omega)
      have h2 := ih rest (by simp at h ⊢; omega)
      unfold Go.utf16Decode
      split
      · simp at h1 ⊢; omega
      · split
        · simp at h2 ⊢; omega
        · simp at h1 ⊢; omega

theorem ttyrec.rowDiff_self (pad : List Nat) : ∀ (cb as : List Nat), cb.length ≤ as.length →
    rowDiff cb (as ++ pad) cb as = some false := by
  intro cb
  induction cb with
  | nil => intro as _; simp [rowDiff]
  | cons c cb ih =>
    intro as h
    match as with
    | [] => simp at h
    | a :: as =>
      simp only [List.cons_append, rowDiff, ne_eq, not_true_eq_false, if_false]
      exact ih as (by simp at h; omega)

theorem ttyrec.readRow_grid (scr : Screen) (csbi : consoleScreenBufferInfo) (l y : Nat)
    (ci : charInfo) (hg : scr.isGrid) (h : readRow scr csbi l y = some ci) :
    ci.buf.length ≤ ci.att.length := by
  unfold readRow at h
  split at h
  · simp at h
  · dsimp only at h
    split at h
    · rename_i cs as hc ha
      split at h
      · simp at h
      · simp at h
        subst h
        have := hg _ _ _ _ hc ha
        have := Go.utf16Decode_length_le cs.length cs (le_refl _)
        simp
        omega
    · simp at h

theorem ttyrec.row_entry (scr : Screen) (csbi : consoleScreenBufferInfo) (l y : Nat)
    (ob : List charInfo) (ci : charInfo) (bytes : List Nat)
    (h : row scr csbi l ob y = some (ci, bytes)) : readRow scr csbi l y = some ci := by
  unfold row at h
  split at h
  · simp at h
  · rename_i ci2 hr
    rw [hr]
    simp only at h
    split at h
    · simp at h
    · simp at h; rw [h.1]
    · simp at h; rw [h.1]

theorem ttyrec.row_retained (scr : Screen) (csbi : consoleScreenBufferInfo) (l y : Nat)
    (ob : List charInfo) (ci : charInfo) (hg : scr.isGrid)
    (hr : readRow scr csbi l y = some ci) (ho : ob.get? y = some ci) :
    row scr csbi l ob y = some (ci, []) := by
  have hlen := ttyrec.readRow_grid scr csbi l y ci hg hr
  have hpos : ob.length > 0 := by
    cases ob with
    | nil => simp at ho
    | cons a b => simp
  unfold row
  rw [hr]
  simp only [hpos, if_true, ho, ttyrec.rowDiff_self _ ci.buf ci.att hlen]

theorem ttyrec.rows_retained (scr : Screen) (csbi : consoleScreenBufferInfo) (l : Nat)
    (hg : scr.isGrid) : ∀ (k y : Nat) (ob pre buf : List charInfo) (bytes : List Nat),
    rows scr csbi l ob k y = some (buf, bytes) → pre.length = y →
    rows scr csbi l (pre ++ buf) k y = some (buf, []) := by
  intro k
  induction k with
  | zero =>
    intro y ob pre buf bytes h _
    simp [rows] at h ⊢
    exact h.1
  | succ k ih =>
    intro y ob pre buf bytes h hy
    simp only [rows] at h
    split at h
    · simp at h
    · rename_i ci b1 hrow
      split at h
      · simp at h
      · rename_i cis more hrows
        simp at h
        obtain ⟨h1, _⟩ := h
        subst h1
        have hr := ttyrec.row_entry scr csbi l y ob ci b1 hrow
        have hget : (pre ++ ci :: cis).get? y = some ci := by
          rw [← hy, List.get?_eq_getElem?, List.getElem?_append_right (le_refl _)]
          simp
        have e1 := ttyrec.row_retained scr csbi l y (pre ++ ci :: cis) ci hg hr hget
        have e2 := ih (y + 1) ob (pre ++ [ci]) cis more hrows (by simp [hy])
        simp only [List.append_assoc, List.singleton_append] at e2
        simp only [rows, e1, e2, List.append_nil]



theorem ttyrec.rowDiff_full : ∀ (cb ca ob oa : List Nat), ca.length = cb.length →
    ob.length = cb.length → oa.length = cb.length →
    rowDiff cb ca ob oa = some (decide (cb ≠ ob ∨ ca ≠ oa)) := by
  intro cb
  induction cb with
  | nil =>
    intro ca ob oa h1 h2 h3
    have e1 := List.length_eq_zero.mp h1
    have e2 := List.length_eq_zero.mp h2
    have e3 := List.length_eq_zero.mp h3
    subst e1 e2 e3
    simp [rowDiff]
  | cons c cb ih =>
    intro ca ob oa h1 h2 h3
    match ca, ob, oa, h1, h2, h3 with
    | a :: ca, o :: ob, p :: oa, h1, h2, h3 =>
      simp only [List.length_cons, add_left_inj] at h1 h2 h3
      have := ih ca ob oa h1 h2 h3
      simp only [rowDiff]
      by_cases hc : c = o
      · by_cases ha : a = p
        · simp [hc, ha, this]
        · simp [hc, ha]
      · simp [hc]

theorem ttyrec.charInfo_ne (n o : charInfo) : n ≠ o ↔ (n.buf ≠ o.buf ∨ n.att ≠ o.att) := by
  cases n
  cases o
  simp only [ne_eq, charInfo.mk.injEq]
  tauto

theorem ttyrec.row_full (scr : Screen) (csbi : consoleScreenBufferInfo) (l y : Nat)
    (ob : List charInfo) (n o : charInfo) (hr : readRow scr csbi l y = some n)
    (ho : ob.get? y = some o) (hn : n.full l) (hfo : o.full l) :
    row scr csbi l ob y = some (n, if n ≠ o then rowRewrite y n.buf n.att else []) := by
  have hpos : ob.length > 0 := by
    cases ob with
    | nil => simp at ho
    | cons a b => simp
  obtain ⟨hn1, hn2⟩ := hn
  obtain ⟨ho1, ho2⟩ := hfo
  have hd := ttyrec.rowDiff_full n.buf n.att o.buf o.att (by omega) (by omega) (by omega)
  unfold row
  rw [hr]
  simp only [hpos, if_true, ho, hn2, Nat.sub_self, List.replicate_zero, List.append_nil, hd]
  by_cases hne : n ≠ o
  · have h2 := (ttyrec.charInfo_ne n o).mp hne
    simp [hne, h2]
  · have h2 : ¬ (n.buf ≠ o.buf ∨ n.att ≠ o.att) := fun h => hne ((ttyrec.charInfo_ne n o).mpr h)
    simp [hne, h2]

theorem ttyrec.rows_full (scr : Screen) (csbi : consoleScreenBufferInfo) (l : Nat) :
    ∀ (k y : Nat) (pre old new : List charInfo),
    pre.length = y → new.length = k → old.length = k →
    (∀ j, j < k → readRow scr csbi l (y + j) = new.get? j) →
    (∀ ci ∈ new, ci.full l) → (∀ ci ∈ old, ci.full l) →
    rows scr csbi l (pre ++ old) k y = some (new, rewriteChanged y new old) := by
  intro k
  induction k with
  | zero =>
    intro y pre old new _ hn ho _ _ _
    have e1 := List.length_eq_zero.mp hn
    have e2 := List.length_eq_zero.mp ho
    subst e1 e2
    simp [rows, rewriteChanged]
  | succ k ih =>
    intro y pre old new hy hn ho hread hfn hfo
    match new, old, hn, ho with
    | n :: new, o :: old, hn, ho =>
      simp only [List.length_cons, add_left_inj] at hn ho
      have hr : readRow scr csbi l y = some n := by
        have := hread 0 (by omega)
        simpa using this
      have hget : (pre ++ o :: old).get? y = some o := by
        rw [← hy, List.get?_eq_getElem?, List.getElem?_append_right (le_refl _)]
        simp
      have e1 := ttyrec.row_full scr csbi l y (pre ++ o :: old) n o hr hget
        (hfn n (by simp)) (hfo o (by simp))
      have e2 := ih (y + 1) (pre ++ [o]) old new (by simp [hy]) hn ho
        (by
          intro j hj
          have := hread (j + 1) (by omega)
          simp only [List.get?_cons_succ] at this
          rw [← this]
          congr 1
          omega)
        (fun ci h => hfn ci (by simp [h])) (fun ci h => hfo ci (by simp [h]))
      simp only [List.append_assoc, List.singleton_append] at e2
      simp only [rows, e1, e2, rewriteChanged]

theorem ttyrec.rewriteChanged_same : ∀ (rs : List charInfo) (y : Nat),
    rewriteChanged y rs rs = [] := by
  intro rs
  induction rs with
  | nil => intro y; simp [rewriteChanged]
  | cons r rs ih => intro y; simp [rewriteChanged, ih]

theorem ttyrec.rewriteChanged_one (r o : charInfo) (post : List charInfo) (hne : r ≠ o) :
    ∀ (pre : List charInfo) (y : Nat),
    rewriteChanged y (pre ++ r :: post) (pre ++ o :: post)
      = rowRewrite ((y + pre.length : Nat) : Int) r.buf r.att := by
  intro pre
  induction pre with
  | nil =>
    intro y
    simp [rewriteChanged, hne, ttyrec.rewriteChanged_same]
  | cons p pre ih =>
    intro y
    have e : y + 1 + pre.length = y + (pre.length + 1) := by omega
    have h := ih (y + 1)
    rw [e] at h
    simp only [List.cons_append, rewriteChanged, ne_eq, not_true_eq_false, if_false,
      List.nil_append, List.length_cons]
    exact h

theorem ttyrec.rowRewrite_length_pos (y : Int) (cb ca : List Nat) :
    0 < (rowRewrite y cb ca).length := by
  simp [rowRewrite]

theorem ttyrec.sample_full (scr : Screen) (nanos : Nat) (st : Retained) (f : List Nat)
    (csbi : consoleScreenBufferInfo) (visible : Int) (new : List charInfo)
    (hinfo : scr.info = some csbi) (hcur : scr.cursorInfo = some visible)
    (hsize : getSize csbi.window = st.oldsize)
    (hrows : (new.length : Int) = Go.int16 ((getSize csbi.window).y + 1))
    (hold : st.oldbuf.length = new.length)
    (hread : ∀ y, y < new.length → readRow scr csbi (cellsPerRow csbi) y = new.get? y)
    (hnew : ∀ ci ∈ new, ci.full (cellsPerRow csbi))
    (hfull : ∀ ci ∈ st.oldbuf, ci.full (cellsPerRow csbi)) :
    sample scr nanos st f
      = some (if (rewriteChanged 0 new st.oldbuf
                    ++ tailBytes st (curposOf csbi) (decide (visible ≠ 0))).length > 0 then
                ({ oldsize := getSize csbi.window, oldcurpos := curposOf csbi,
                   oldcurvis := decide (visible ≠ 0), oldbuf := new },
                 writeBytes nanos f (rewriteChanged 0 new st.oldbuf
                    ++ tailBytes st (curposOf csbi) (decide (visible ≠ 0))))
              else (st, f)) := by
  have hneg : ¬ Go.int16 ((getSize csbi.window).y + 1) < 0 := by
    rw [← hrows]; omega
  have hk : (Go.int16 ((getSize csbi.window).y + 1)).toNat = new.length := by
    rw [← hrows]; simp
  have hr := ttyrec.rows_full scr csbi (cellsPerRow csbi) new.length 0 [] st.oldbuf new rfl rfl
    hold (by intro j hj; simpa using hread j hj) hnew hfull
  simp only [List.nil_append] at hr
  have hx : ¬ ((getSize csbi.window).x ≠ st.oldsize.x ∨ (getSize csbi.window).y ≠ st.oldsize.y) := by
    rw [hsize]; simp
  unfold sample
  simp only [hinfo, hcur, hx, if_false, hneg, hk, hr]
  split
  · rfl
  · rfl

/-- Claim C4 (idempotent diffing).  On a screen that is a grid of cells, whatever the
retained variables `st` and the recording `f` before: when a sample completes and
leaves the retained variables `st1` and the recording `f1`, the next sample of the
same screen (at any clock reading) writes no frame, the recording is still `f1`,
and leaves the retained snapshot, cursor position, visibility and size as they
are. -/
theorem idempotent_diffing (scr : Screen) (n1 n2 : Nat) (st st1 : Retained) (f f1 : List Nat)
    (hg : scr.isGrid) (h : sample scr n1 st f = some (st1, f1)) :
    sample scr n2 st1 f1 = some (st1, f1) := by
  unfold sample at h
  split at h
  · rename_i csbi visible hi hv
    dsimp only at h
    split at h
    · simp at h
    · rename_i hneg
      split at h
      · simp at h
      · rename_i buf rowBytes hrows
        split at h
        · -- a frame was written: the retained variables are those of this sample
          simp only [Option.some.injEq, Prod.mk.injEq] at h
          obtain ⟨hst, hf⟩ := h
          subst hst
          have hagain := ttyrec.rows_retained scr csbi (cellsPerRow csbi) hg _ 0 _ [] buf rowBytes
            hrows rfl
          simp only [List.nil_append] at hagain
          unfold sample
          simp only [hi, hv, hneg, if_false, ne_eq, not_true_eq_false, or_self, if_false, hagain]
          simp [tailBytes]
        · -- no frame was written
          rename_i hbb
          simp only [Option.some.injEq, Prod.mk.injEq] at h
          obtain ⟨hst, hf⟩ := h
          subst hst hf
          unfold sample
          simp only [hi, hv, hneg, if_false]
          have hob : (if (getSize csbi.window).x ≠ st.oldsize.x ∨ (getSize csbi.window).y ≠ st.oldsize.y
              then ([] : List charInfo)
              else (if (getSize csbi.window).x ≠ st.oldsize.x ∨ (getSize csbi.window).y ≠ st.oldsize.y
                then [] else st.oldbuf))
              = (if (getSize csbi.window).x ≠ st.oldsize.x ∨ (getSize csbi.window).y ≠ st.oldsize.y
                then [] else st.oldbuf) := by
            split <;> rfl
          simp only [hob, hrows]
          have ht : tailBytes { st with oldbuf := (if (getSize csbi.window).x ≠ st.oldsize.x
                ∨ (getSize csbi.window).y ≠ st.oldsize.y then [] else st.oldbuf) }
              (curposOf csbi) (decide (visible ≠ 0))
              = tailBytes st (curposOf csbi) (decide (visible ≠ 0)) := rfl
          rw [ht]
          simp only [hbb, if_false]
  · simp at h

theorem idempotent_diffing_witness :
    sample Run.screen 9000 Run.sampled (writeBytes 7000 [0x2a] (rowRewrite 3 [65, 67] [7, 7]))
      = some (Run.sampled, writeBytes 7000 [0x2a] (rowRewrite 3 [65, 67] [7, 7])) :=
  idempotent_diffing Run.screen 7000 9000 Run.retained Run.sampled
    [0x2a] (writeBytes 7000 [0x2a] (rowRewrite 3 [65, 67] [7, 7]))
    (by
      intro xy l cs as h1 h2
      simp only [Run.screen] at h1 h2
      split at h1 <;> simp at h1 h2 <;> subst h1 h2 <;> simp)
    (by decide)

/-- Claim C5, counterexample.  A window of three cells whose row holds a double-width
glyph and `A`; the retained snapshot has the same dimensions and the same glyphs,
and differs in the attribute of the third cell only (1 retained, 7 on the
screen).  The row has two runes, the comparison loop looks at the positions 0 and
1 only, and the sample writes no frame and keeps the retained variables. -/
theorem changed_rows_only_fails :
    getSize Run.wideCsbi.window = Run.wideRetained.oldsize
    ∧ readRow Run.wideScreen Run.wideCsbi (cellsPerRow Run.wideCsbi) 0
        = some { buf := [0x3042, 65], att := [0x0107, 0x0207, 7] }
    ∧ Run.wideRetained.oldbuf.get? 0 = some { buf := [0x3042, 65], att := [0x0107, 0x0207, 1] }
    ∧ sample Run.wideScreen 7000 Run.wideRetained [0x2a] = some (Run.wideRetained, [0x2a]) := by
  decide

/-- Claim C5, amended (changed rows only).  A sample of a screen whose window has the
dimensions of the retained snapshot, with `new` the rows read, every row read and
every retained row being a row of `l` cells with one glyph and one attribute
each.  The sample completes; the bytes gathered are, for the rows in increasing
order, a row rewrite for each row that differs from the retained row and nothing
for a row that does not, followed by the cursor bytes; a frame with these bytes
is written when there are any, and nothing is written or changed otherwise.  In
particular, when the rows read differ from the retained rows in row 3 only and
the cursor did not change, one frame is written and its payload is the rewrite
of row 3. -/
theorem changed_rows_only (scr : Screen) (nanos : Nat) (st : Retained) (f : List Nat)
    (csbi : consoleScreenBufferInfo) (visible : Int) (new : List charInfo)
    (hinfo : scr.info = some csbi) (hcur : scr.cursorInfo = some visible)
    (hsize : getSize csbi.window = st.oldsize)
    (hrows : (new.length : Int) = Go.int16 ((getSize csbi.window).y + 1))
    (hold : st.oldbuf.length = new.length)
    (hread : ∀ y, y < new.length → readRow scr csbi (cellsPerRow csbi) y = new.get? y)
    (hnew : ∀ ci ∈ new, ci.full (cellsPerRow csbi))
    (hfull : ∀ ci ∈ st.oldbuf, ci.full (cellsPerRow csbi)) :
    sample scr nanos st f
      = some (if (rewriteChanged 0 new st.oldbuf
                    ++ tailBytes st (curposOf csbi) (decide (visible ≠ 0))).length > 0 then
                ({ oldsize := getSize csbi.window, oldcurpos := curposOf csbi,
                   oldcurvis := decide (visible ≠ 0), oldbuf := new },
                 writeBytes nanos f (rewriteChanged 0 new st.oldbuf
                    ++ tailBytes st (curposOf csbi) (decide (visible ≠ 0))))
              else (st, f))
    ∧ ∀ (pre post : List charInfo) (r o : charInfo),
        new = pre ++ r :: post → st.oldbuf = pre ++ o :: post → pre.length = 3 → r ≠ o →
        st.oldcurpos = curposOf csbi → st.oldcurvis = decide (visible ≠ 0) →
        sample scr nanos st f
          = some ({ oldsize := getSize csbi.window, oldcurpos := curposOf csbi,
                    oldcurvis := decide (visible ≠ 0), oldbuf := new },
                  writeBytes nanos f (rowRewrite 3 r.buf r.att)) := by
  have hs := ttyrec.sample_full scr nanos st f csbi visible new hinfo hcur hsize hrows hold
    hread hnew hfull
  refine ⟨hs, ?_⟩
  intro pre post r o hn ho hp hne hpos hvis
  have hrw : rewriteChanged 0 new st.oldbuf = rowRewrite 3 r.buf r.att := by
    rw [hn, ho, ttyrec.rewriteChanged_one r o post hne pre 0, hp]
    rfl
  have ht : tailBytes st (curposOf csbi) (decide (visible ≠ 0)) = [] := by
    simp [tailBytes, hpos, hvis]
  rw [hs, hrw, ht, List.append_nil, if_pos (ttyrec.rowRewrite_length_pos _ _ _)]

theorem changed_rows_only_witness :
    (Run.screen.info = some Run.csbi ∧ Run.screen.cursorInfo = some 1
      ∧ getSize Run.csbi.window = Run.retained.oldsize
      ∧ (Run.newRows.length : Int) = Go.int16 ((getSize Run.csbi.window).y + 1)
      ∧ Run.retained.oldbuf.length = Run.newRows.length
      ∧ (∀ y, y < Run.newRows.length →
          readRow Run.screen Run.csbi (cellsPerRow Run.csbi) y = Run.newRows.get? y)
      ∧ (∀ ci ∈ Run.newRows, ci.full (cellsPerRow Run.csbi))
      ∧ (∀ ci ∈ Run.retained.oldbuf, ci.full (cellsPerRow Run.csbi)))
    ∧ (sample Run.screen 7000 Run.retained [0x2a]
        = some (if (rewriteChanged 0 Run.newRows Run.retained.oldbuf
                      ++ tailBytes Run.retained (curposOf Run.csbi)
                          (decide ((1 : Int) ≠ 0))).length > 0 then
                  ({ oldsize := getSize Run.csbi.window, oldcurpos := curposOf Run.csbi,
                     oldcurvis := decide ((1 : Int) ≠ 0), oldbuf := Run.newRows },
                   writeBytes 7000 [0x2a] (rewriteChanged 0 Run.newRows Run.retained.oldbuf
                      ++ tailBytes Run.retained (curposOf Run.csbi) (decide ((1 : Int) ≠ 0))))
                else (Run.retained, [0x2a]))
      ∧ ∀ (pre post : List charInfo) (r o : charInfo),
          Run.newRows = pre ++ r :: post → Run.retained.oldbuf = pre ++ o :: post →
          pre.length = 3 → r ≠ o →
          Run.retained.oldcurpos = curposOf Run.csbi →
          Run.retained.oldcurvis = decide ((1 : Int) ≠ 0) →
          sample Run.screen 7000 Run.retained [0x2a]
            = some ({ oldsize := getSize Run.csbi.window, oldcurpos := curposOf Run.csbi,
                      oldcurvis := decide ((1 : Int) ≠ 0), oldbuf := Run.newRows },
                    writeBytes 7000 [0x2a] (rowRewrite 3 r.buf r.att))) :=
  ⟨by decide,
   changed_rows_only Run.screen 7000 Run.retained [0x2a] Run.csbi 1 Run.newRows
     (by decide) (by decide) (by decide) (by decide) (by decide) (by decide) (by decide)
     (by decide)⟩

end Recorder

/-! ## Supporting lemmas: line feed, scroll region, attribute table -/

section Player

open ttyplay

theorem ttyplay.lineFeed_at_bottom (echo : consoleScreenBufferInfo → Nat → consoleScreenBufferInfo)
    (st : State) (sc : smallRect) (hs : st.scroll = some sc)
    (hy : st.con.csbi.cursorPosition.y = sc.bottom) :
    lineFeed echo st
      = ({ st with
           scroll := some { sc with top := Go.int16 (sc.top + 1) },
           con := st.con.cells (Call.ScrollConsoleScreenBuffer
             { sc with top := Go.int16 (sc.top + 1) }
             { x := 0, y := Go.int16 (sc.top + 1) } 32 st.con.csbi.attributes) }, true) := by
  simp [lineFeed, hs, hy]

theorem ttyplay.case_r_two (buf : List Nat) (csbi : consoleScreenBufferInfo) (a b : Int)
    (h : Go.Sscanf_d_d 16 buf = [a, b]) :
    case_r buf csbi
      = some { left := csbi.window.left, top := a, right := csbi.window.right, bottom := -1 } := by
  simp [case_r, h, Go.int16]

theorem ttyrec.fgToAnsi_mod (a : Nat) : ttyrec.fgToAnsi a = ttyrec.fgToAnsi (a % 16) := by
  simp [ttyrec.fgToAnsi]

theorem ttyrec.bgToAnsi_low_byte (a : Nat) (h : a < 256) :
    40 ≤ ttyrec.bgToAnsi a ∧ ttyrec.bgToAnsi a ≤ 47 := by
  have h16 : a / 16 < 16 := by omega
  unfold ttyrec.bgToAnsi
  generalize a / 0x10 = q at h16 ⊢
  interval_cases q <;> simp

theorem ttyrec.bgToAnsi_above_low_byte (a : Nat) (h : 256 ≤ a) : ttyrec.bgToAnsi a = 0 := by
  have h16 : 16 ≤ a / 16 := by omega
  unfold ttyrec.bgToAnsi
  generalize a / 0x10 = q at h16 ⊢
  split <;> omega

/-- When there are at least as many pending bytes as the header announces payload
bytes, the read loop of the player does not run: the buffer is the pending bytes
followed by zero bytes, and the payload stays in the file. -/
theorem ttyplay.readData_pending (chunk : Nat) (lastbuf f : List Nat) (header2 : Nat)
    (h0 : 0 < lastbuf.length) (h : header2 ≤ lastbuf.length) :
    readData chunk lastbuf header2 f = (lastbuf ++ List.replicate header2 0, f) := by
  have hn : ¬ lastbuf.length < header2 := by omega
  cases header2 with
  | zero => simp [readData, readLoop, h0]
  | succ n => simp [readData, readLoop, h0, hn]

/-! ## Supporting lemmas: pacing in the main loop -/

theorem Go.readHeader_frame (s u : Nat) (b rest : List Nat)
    (hs : s < 4294967296) (hu : u < 4294967296) (hb : b.length < 4294967296) :
    Go.readHeader (Run.frame s u b ++ rest) = some ((s, u, b.length), b ++ rest) := by
  have := Go.readHeader_put s u b.length (b ++ rest) hs hu hb
  simpa [Run.frame, List.append_assoc] using this

theorem ttyplay.readData_nothing (chunk : Nat) (f : List Nat) :
    readData chunk [] 0 f = ([], f) := by
  simp [readData, readLoop]

theorem ttyplay.parse_nil (echo : consoleScreenBufferInfo → Nat → consoleScreenBufferInfo)
    (attr_old : Nat) (st : State) : parse echo attr_old [] st = (st, true) := by
  simp [parse, parseLoop]

end Player

/-! ## Supporting lemmas: the duration of a recording of several frames -/

section Duration

open ttytime

theorem Run.frame_length (s u : Nat) (b : List Nat) : (Run.frame s u b).length = 12 + b.length := by
  simp [Run.frame, Go.putUint32]
  omega

/-- The loop of `calc_time` on a recording whose payloads are shorter than 2^31 bytes,
started at the first of the frames `frs` with the frames before it in `pre`: it
ends, and `end` is the header of the last frame of `frs` (or still `e` when `frs`
is empty). -/
theorem ttytime.calcLoop_frames : ∀ (frs : List (Nat × Nat × List Nat)) (pre : List Nat)
    (e : Int × Int × Int) (fuel : Nat),
    (∀ fr ∈ frs, fr.1 < 4294967296 ∧ fr.2.1 < 4294967296 ∧ fr.2.2.length < 2147483648) →
    frs.length < fuel →
    calcLoop (pre ++ Run.recording frs) fuel pre.length e
      = some ((frs.map (fun fr => ((Go.int32 fr.1, Go.int32 fr.2.1, (fr.2.2.length : Int))
                : Int × Int × Int))).getLastD e) := by
  intro frs
  induction frs with
  | nil =>
    intro pre e fuel _ hf
    match fuel, hf with
    | fuel + 1, _ =>
      simp [Run.recording, calcLoop, ttytime.readHeader, Go.readHeader]
  | cons fr frs ih =>
    intro pre e fuel hall hf
    match fuel, hf with
    | fuel + 1, hf =>
      obtain ⟨h1, h2, h3⟩ := hall fr (by simp)
      have hh := Go.readHeader_frame fr.1 fr.2.1 fr.2.2 (Run.recording frs) h1 h2 (by omega)
      have hdrop : (pre ++ Run.recording (fr :: frs)).drop pre.length
          = Run.frame fr.1 fr.2.1 fr.2.2 ++ Run.recording frs := by
        simp [Run.recording]
      have hlen : Go.int32 (fr.2.2.length : Int) = (fr.2.2.length : Int) := by
        unfold Go.int32
        omega
      have hseek : seek (pre.length + 12) (fr.2.2.length : Int) = pre.length + 12 + fr.2.2.length := by
        unfold seek
        rw [if_pos (by omega)]
        omega
      have hpre : pre ++ Run.recording (fr :: frs)
          = (pre ++ Run.frame fr.1 fr.2.1 fr.2.2) ++ Run.recording frs := by
        simp [Run.recording]
      have hplen : (pre ++ Run.frame fr.1 fr.2.1 fr.2.2).length
          = pre.length + 12 + fr.2.2.length := by
        simp [Run.frame_length]
        omega
      have := ih (pre ++ Run.frame fr.1 fr.2.1 fr.2.2)
        (Go.int32 fr.1, Go.int32 fr.2.1, (fr.2.2.length : Int)) fuel
        (fun x hx => hall x (by simp [hx])) (by simpa using hf)
      rw [hplen, ← hpre] at this
      simp only [calcLoop, hdrop, ttytime.readHeader, hh, hlen, hseek, this]
      cases frs with
      | nil => simp
      | cons a as => simp [List.getLastD]

/-- On a recording of at least two frames with payloads shorter than 2^31 bytes,
`calc_time` returns the seconds of the last frame minus the seconds of the first
(both read as `int32`, the difference taken in `int32`). -/
theorem ttytime.calc_time_frames (first last : Nat × Nat × List Nat)
    (mid : List (Nat × Nat × List Nat)) (fuel : Nat)
    (hall : ∀ fr ∈ first :: (mid ++ [last]),
      fr.1 < 4294967296 ∧ fr.2.1 < 4294967296 ∧ fr.2.2.length < 2147483648)
    (hf : mid.length + 1 < fuel) :
    calc_time fuel (some (Run.recording (first :: (mid ++ [last]))))
      = Outcome.value (Go.int32 (Go.int32 last.1 - Go.int32 first.1)) := by
  obtain ⟨h1, h2, h3⟩ := hall first (by simp)
  have hh := Go.readHeader_frame first.1 first.2.1 first.2.2 (Run.recording (mid ++ [last]))
    h1 h2 (lt_trans h3 (by norm_num))
  have hlen : Go.int32 (first.2.2.length : Int) = (first.2.2.length : Int) := by
    unfold Go.int32
    omega
  have hseek : seek 12 (first.2.2.length : Int) = 12 + first.2.2.length := by
    unfold seek
    rw [if_pos (by omega)]
    omega
  have hl := ttytime.calcLoop_frames (mid ++ [last]) (Run.frame first.1 first.2.1 first.2.2)
    (0, 0, 0) fuel (fun x hx => hall x (List.mem_cons_of_mem _ hx))
    (by simp only [List.length_append, List.length_singleton]; exact hf)
  rw [Run.frame_length] at hl
  have hrec : Run.recording (first :: (mid ++ [last]))
      = Run.frame first.1 first.2.1 first.2.2 ++ Run.recording (mid ++ [last]) := by
    simp [Run.recording]
  rw [List.map_append, List.map_singleton, List.getLastD_concat] at hl
  simp only [calc_time, hrec, ttytime.readHeader, hh, hlen, hseek, hl]

end Duration

/-! ## The player: erase in line -/

section EraseInLine

open ttyplay

/-- A fill that starts on a row at a column that is not negative and does not run
past the end of the row writes cells of that row only. -/
theorem ttyplay.filledCells_row (width x y : Int) (count : Nat) (hx : 0 ≤ x)
    (hc : x + (count : Int) ≤ width) :
    ∀ c ∈ filledCells width count { x := x, y := y }, c.y = y := by
  intro c hmem
  simp only [filledCells, List.mem_map, List.mem_range] at hmem
  obtain ⟨i, hi, rfl⟩ := hmem
  have hlt : x + (i : Int) < width := by omega
  have hW : width ≠ 0 := by omega
  have e : y * width + x + (i : Int) = (x + (i : Int)) + y * width := by ring
  show (y * width + x + (i : Int)) / width = y
  rw [e, Int.add_mul_ediv_right _ _ hW, Int.ediv_eq_zero_of_lt (by omega) hlt]
  simp

theorem Go.dword_int16 (d : Int) (h0 : 0 ≤ d) (h1 : d ≤ 32767) :
    Go.dword (Go.int16 d) = d.toNat := by
  unfold Go.dword Go.int16
  omega

/-- Mode 0 of `case 'K'`, for a cursor inside a screen buffer at most 32767 cells
wide: the two fills start at the cursor, and the cells they write lie on the
cursor row. -/
theorem ttyplay.case_K_mode0 (buf : List Nat) (con : Console)
    (hn : Go.Sscanf_d 64 buf = none ∨ Go.Sscanf_d 64 buf = some 0)
    (hx : 0 ≤ con.csbi.cursorPosition.x) (hw : con.csbi.cursorPosition.x ≤ con.csbi.size.x)
    (hs : con.csbi.size.x ≤ 32767) :
    case_K buf con
      = fill con (con.csbi.size.x - con.csbi.cursorPosition.x).toNat con.csbi.cursorPosition
    ∧ ∀ c ∈ filledCells con.csbi.size.x
          (con.csbi.size.x - con.csbi.cursorPosition.x).toNat con.csbi.cursorPosition,
        c.y = con.csbi.cursorPosition.y := by
  have hcount : Go.dword (Go.int16 (con.csbi.size.x - con.csbi.cursorPosition.x))
      = (con.csbi.size.x - con.csbi.cursorPosition.x).toNat :=
    Go.dword_int16 _ (by omega) (by omega)
  constructor
  · rcases hn with h | h <;> simp [case_K, h, hcount]
  · have hc : con.csbi.cursorPosition.x
        + ((con.csbi.size.x - con.csbi.cursorPosition.x).toNat : Int) ≤ con.csbi.size.x := by
      rw [Int.toNat_of_nonneg (by omega)]
      omega
    exact ttyplay.filledCells_row con.csbi.size.x con.csbi.cursorPosition.x
      con.csbi.cursorPosition.y _ hx hc

/-- Modes 1 and 2 of `case 'K'`: the fills start on the row `window.top +
cursorPosition.y`, in the column `window.left`. -/
theorem ttyplay.case_K_mode12 (buf : List Nat) (con : Console) :
    (Go.Sscanf_d 64 buf = some 1 →
      case_K buf con = fill con (Go.dword con.csbi.cursorPosition.x)
        { x := con.csbi.window.left,
          y := Go.int16 (con.csbi.window.top + con.csbi.cursorPosition.y) })
    ∧ (Go.Sscanf_d 64 buf = some 2 →
      case_K buf con = fill con (Go.dword con.csbi.size.x)
        { x := con.csbi.window.left,
          y := Go.int16 (con.csbi.window.top + con.csbi.cursorPosition.y) }) := by
  constructor <;> intro h <;> simp [case_K, h]

/-- Claim C11, at a window whose top row is buffer row 5 (80 columns, window rows 5
to 29) with the cursor at column 3 of buffer row 10.  Mode 0, written or absent,
fills the 77 cells from the cursor to the end of row 10.  Mode 1 fills 3 cells
and mode 2 fills 80 cells, but both start at row 5 + 10 = 15: the cells written
are cells of row 15, none of row 10.  With the window top at buffer row 0 the
same sequences fill cells of the cursor row. -/
theorem erase_in_line_window_offset :
    (parse Run.echoRight 7 [0x1b, 0x5b, 0x30, 0x4b]
        { t := 0, lastbuf := [], scroll := none, con := Run.scrolledConsole 3 10 7,
          waits := [] }).1.con.calls
      = [Call.FillConsoleOutputCharacter 32 77 { x := 3, y := 10 },
         Call.FillConsoleOutputAttribute 7 77 { x := 3, y := 10 }]
    ∧ (parse Run.echoRight 7 [0x1b, 0x5b, 0x4b]
        { t := 0, lastbuf := [], scroll := none, con := Run.scrolledConsole 3 10 7,
          waits := [] }).1.con.calls
      = [Call.FillConsoleOutputCharacter 32 77 { x := 3, y := 10 },
         Call.FillConsoleOutputAttribute 7 77 { x := 3, y := 10 }]
    ∧ (parse Run.echoRight 7 [0x1b, 0x5b, 0x31, 0x4b]
        { t := 0, lastbuf := [], scroll := none, con := Run.scrolledConsole 3 10 7,
          waits := [] }).1.con.calls
      = [Call.FillConsoleOutputCharacter 32 3 { x := 0, y := 15 },
         Call.FillConsoleOutputAttribute 7 3 { x := 0, y := 15 }]
    ∧ filledCells 80 3 { x := 0, y := 15 }
      = [{ x := 0, y := 15 }, { x := 1, y := 15 }, { x := 2, y := 15 }]
    ∧ (parse Run.echoRight 7 [0x1b, 0x5b, 0x32, 0x4b]
        { t := 0, lastbuf := [], scroll := none, con := Run.scrolledConsole 3 10 7,
          waits := [] }).1.con.calls
      = [Call.FillConsoleOutputCharacter 32 80 { x := 0, y := 15 },
         Call.FillConsoleOutputAttribute 7 80 { x := 0, y := 15 }]
    ∧ (parse Run.echoRight 7 [0x1b, 0x5b, 0x31, 0x4b]
        { t := 0, lastbuf := [], scroll := none, con := Run.console 3 10 7,
          waits := [] }).1.con.calls
      = [Call.FillConsoleOutputCharacter 32 3 { x := 0, y := 10 },
         Call.FillConsoleOutputAttribute 7 3 { x := 0, y := 10 }]
    ∧ (parse Run.echoRight 7 [0x1b, 0x5b, 0x32, 0x4b]
        { t := 0, lastbuf := [], scroll := none, con := Run.console 3 10 7,
          waits := [] }).1.con.calls
      = [Call.FillConsoleOutputCharacter 32 80 { x := 0, y := 10 },
         Call.FillConsoleOutputAttribute 7 80 { x := 0, y := 10 }] := by
  decide

end EraseInLine

/-! ## The player: OSC sequences -/

/-- Claim C12, at a recording of two frames read from a regular file, with the
payloads ESC ] a b and c d ; x.  At the end of the first payload the decoder
keeps the bytes a b as pending, without the introducer ESC ]; the buffer of the
second frame is a b c d ; x, which is decoded as plain text, and the runes a, b,
c, d of the OSC content (and the `;`) are printed.  Played as one frame, only
the x after the `;` is printed. -/
theorem osc_content_across_frames :
    (ttyplay.parse Run.echoRight 7 [0x1b, 0x5d, 97, 98]
        { t := 0, lastbuf := [], scroll := none, con := Run.console 0 0 7, waits := [] }).1.lastbuf
      = [97, 98]
    ∧ (ttyplay.main Run.env (Run.console 0 0 7)
        (Run.frame 100 0 [0x1b, 0x5d, 97, 98] ++ Run.frame 100 5 [99, 100, 59, 120])).con.calls
      = [ttyplay.Call.Print 97, ttyplay.Call.Print 98, ttyplay.Call.Print 99,
         ttyplay.Call.Print 100, ttyplay.Call.Print 59, ttyplay.Call.Print 120,
         ttyplay.Call.SetConsoleTextAttribute 7]
    ∧ (ttyplay.main Run.env (Run.console 0 0 7)
        (Run.frame 100 0 [0x1b, 0x5d, 97, 98, 99, 100, 59, 120])).con.calls
      = [ttyplay.Call.Print 120, ttyplay.Call.SetConsoleTextAttribute 7] := by
  decide

/-! ## Pacing: 32-bit wrap-around -/

/-- Claim C13 (wrap-around in pacing).  Two consecutive frames with true timestamps
`sp * 1000000 + up` and `sc * 1000000 + uc` microseconds, the first not above the
second, less than 2^32 apart, the first not a multiple of 2^32.  Evaluating
`header[0]*1000000 + header[1]` step by step in 32 bits gives the timestamp
modulo 2^32; the 32-bit difference of the current value and the value stored for
the previous frame is the true difference; and the player, after pacing the
previous frame from any `t`, arms the timer for that difference. -/
theorem pacing_wrap_around (speed : Nat → Nat) (t sp up sc uc : Nat)
    (hle : sp * 1000000 + up ≤ sc * 1000000 + uc)
    (hgap : sc * 1000000 + uc - (sp * 1000000 + up) < 4294967296)
    (hnz : (sp * 1000000 + up) % 4294967296 ≠ 0) :
    Go.uint32 (Go.uint32 (sc * 1000000) + uc) = (sc * 1000000 + uc) % 4294967296
    ∧ Go.uint32 (Go.uint32 (sc * 1000000 + uc) + 4294967296 - Go.uint32 (sp * 1000000 + up))
        = sc * 1000000 + uc - (sp * 1000000 + up)
    ∧ (ttyplay.pace false speed (ttyplay.pace false speed t sp up).2 sc uc).1
        = some (speed (sc * 1000000 + uc - (sp * 1000000 + up))) := by
  have e := Go.uint32_sub_wrap _ _ hle hgap
  have m : Go.uint32 (sp * 1000000 + up) ≠ 0 := hnz
  refine ⟨?_, e, ?_⟩
  · unfold Go.uint32
    omega
  · simp [ttyplay.pace, m, e]

theorem pacing_wrap_around_witness :
    (1383000945 * 1000000 + 148480 ≤ 1383000947 * 1000000 + 5
      ∧ 1383000947 * 1000000 + 5 - (1383000945 * 1000000 + 148480) < 4294967296
      ∧ (1383000945 * 1000000 + 148480) % 4294967296 ≠ 0)
    ∧ (Go.uint32 (Go.uint32 (1383000947 * 1000000) + 5)
          = (1383000947 * 1000000 + 5) % 4294967296
      ∧ Go.uint32 (Go.uint32 (1383000947 * 1000000 + 5) + 4294967296
            - Go.uint32 (1383000945 * 1000000 + 148480))
          = 1383000947 * 1000000 + 5 - (1383000945 * 1000000 + 148480)
      ∧ (ttyplay.pace false (fun d => d / 2)
            (ttyplay.pace false (fun d => d / 2) 0 1383000945 148480).2 1383000947 5).1
          = some ((fun d => d / 2)
              (1383000947 * 1000000 + 5 - (1383000945 * 1000000 + 148480)))) :=
  ⟨by decide,
   pacing_wrap_around (fun d => d / 2) 0 1383000945 148480 1383000947 5
     (by decide) (by decide) (by decide)⟩

/-! ## Supporting lemmas: the fuel of the decoder, OSC within one buffer -/

section Decoder

open ttyplay

theorem ttyplay.collectCSI_rest : ∀ (rs buf : List Nat) (m : Nat) (rest out : List Nat),
    collectCSI rs buf = (some (m, rest), out) → rest.length < rs.length := by
  intro rs
  induction rs with
  | nil => intro buf m rest out h; simp [collectCSI] at h
  | cons c cs ih =>
    intro buf m rest out h
    simp only [collectCSI] at h
    split at h
    · simp only [Prod.mk.injEq, Option.some.injEq] at h
      obtain ⟨⟨_, h2⟩, _⟩ := h
      subst h2
      simp
    · have := ih _ m rest out h
      simp
      omega

theorem ttyplay.collectOSC_rest : ∀ (rs buf : List Nat) (rest out : List Nat),
    collectOSC rs buf = (some rest, out) → rest.length < rs.length := by
  intro rs
  induction rs with
  | nil => intro buf rest out h; simp [collectOSC] at h
  | cons c cs ih =>
    intro buf rest out h
    simp only [collectOSC] at h
    split at h
    · simp only [Prod.mk.injEq, Option.some.injEq] at h
      obtain ⟨h2, _⟩ := h
      subst h2
      simp
    · have := ih _ rest out h
      simp
      omega

/-- The fuel of the loop `parse` is enough: with any fuel above the number of runes
the result is the same. -/
theorem ttyplay.parseLoop_fuel (echo : consoleScreenBufferInfo → Nat → consoleScreenBufferInfo)
    (attr_old : Nat) : ∀ (fuel fuel2 : Nat) (runes : List Nat) (st : State),
    runes.length < fuel → runes.length < fuel2 →
    parseLoop echo attr_old fuel runes st = parseLoop echo attr_old fuel2 runes st := by
  intro fuel
  induction fuel with
  | zero => intro fuel2 runes st h; omega
  | succ f ih =>
    intro fuel2 runes st h1 h2
    match fuel2, h2 with
    | f2 + 1, h2 =>
      match runes, h1, h2 with
      | [], _, _ => simp [parseLoop]
      | c1 :: rs, h1, h2 =>
        simp only [List.length_cons] at h1 h2
        simp only [parseLoop]
        split
        · split
          · exact ih f2 rs _ (by omega) (by omega)
          · rfl
        · match rs, h1, h2 with
          | [], _, _ => rfl
          | c2 :: rs2, h1, h2 =>
            simp only [List.length_cons] at h1 h2
            dsimp only
            split
            · split
              · rfl
              · rename_i m rest buf hc
                have := ttyplay.collectCSI_rest rs2 [] m rest buf hc
                split
                · exact ih f2 rest _ (by omega) (by omega)
                · rfl
            · split
              · split
                · rfl
                · rename_i rest buf hc
                  have := ttyplay.collectOSC_rest rs2 [] rest buf hc
                  exact ih f2 rest _ (by omega) (by omega)
              · split
                · exact ih f2 rs2 _ (by omega) (by omega)
                · rfl

theorem ttyplay.collectOSC_found : ∀ (cs rest buf : List Nat), 59 ∉ cs →
    (collectOSC (cs ++ 59 :: rest) buf).1 = some rest := by
  intro cs
  induction cs with
  | nil => intro rest buf _; simp [collectOSC]
  | cons c cs ih =>
    intro rest buf h
    have hc : c ≠ 59 := fun e => h (by simp [e])
    have hcs : 59 ∉ cs := fun e => h (by simp [e])
    simp only [List.cons_append, collectOSC, hc, if_false]
    exact ih rest _ hcs

/-- Within one buffer the content of an OSC sequence is discarded: decoding ESC ],
runes `cs` without a `;`, a `;` and the runes `rest` leaves the state that
decoding `rest` alone leaves, so no rune of `cs` is printed. -/
theorem ttyplay.parse_osc (echo : consoleScreenBufferInfo → Nat → consoleScreenBufferInfo)
    (attr_old : Nat) (cs rest : List Nat) (st : State) (h : 59 ∉ cs) :
    parse echo attr_old (0x1b :: 0x5d :: (cs ++ 59 :: rest)) st = parse echo attr_old rest st := by
  have hf := ttyplay.collectOSC_found cs rest [] h
  unfold parse
  simp only [List.length_cons, parseLoop, ne_eq, not_true_eq_false, if_false]
  have hne : ¬ ((0x5d : Nat) = 0x5b) := by decide
  simp only [hne, if_false, if_true]
  split
  · rename_i buf hc
    rw [hc] at hf
    simp at hf
  · rename_i rest2 buf hc
    rw [hc] at hf
    simp only [Option.some.injEq] at hf
    subst hf
    exact ttyplay.parseLoop_fuel echo attr_old _ _ _ st (by simp; omega) (by omega)

end Decoder

/-! ## Supporting lemmas: the `float64` quotient of line 159 -/

section Quotient

open Go

theorem Go.log2Aux_eq : ∀ (fuel n : Nat), n ≤ fuel → Go.log2Aux fuel n = Nat.log2 n := by
  intro fuel
  induction fuel with
  | zero =>
    intro n h
    have : n = 0 := by omega
    subst this
    rw [Nat.log2]
    simp [Go.log2Aux]
  | succ f ih =>
    intro n h
    rw [Nat.log2]
    simp only [Go.log2Aux, ge_iff_le]
    split
    · rw [ih (n / 2) (by omega)]
    · rfl

theorem Go.log2_eq (n : Nat) : Go.log2 n = Nat.log2 n := Go.log2Aux_eq n n (Nat.le_refl n)

theorem Go.quoLog2_le (n d : Nat) (hn : 0 < n) (hd : 0 < d) (h : n < 9007199254740992 * d) :
    quoLog2 n d ≤ 52 := by
  have hn1 : n < 2 ^ (Nat.log2 n + 1) := Nat.lt_log2_self
  have hn2 : 2 ^ Nat.log2 n ≤ n := Nat.log2_self_le (by omega)
  have hd1 : d < 2 ^ (Nat.log2 d + 1) := Nat.lt_log2_self
  have hd2 : 2 ^ Nat.log2 d ≤ d := Nat.log2_self_le (by omega)
  -- log2 n ≤ log2 d + 53
  have key : Nat.log2 n < Nat.log2 d + 54 := by
    by_contra hc
    have hge : Nat.log2 d + 54 ≤ Nat.log2 n := by omega
    have h1 : 2 ^ (Nat.log2 d + 54) ≤ 2 ^ Nat.log2 n := Nat.pow_le_pow_right (by norm_num) hge
    have h2 : 2 ^ (Nat.log2 d + 54) = 2 ^ (Nat.log2 d + 1) * 9007199254740992 := by
      rw [show Nat.log2 d + 54 = (Nat.log2 d + 1) + 53 by omega, Nat.pow_add]
    have h3 : d * 9007199254740992 < 2 ^ (Nat.log2 d + 1) * 9007199254740992 :=
      Nat.mul_lt_mul_of_pos_right hd1 (by norm_num)
    omega
  unfold quoLog2
  rw [Go.log2_eq, Go.log2_eq]
  simp only
  split
  · rename_i hc
    split
    · rename_i ht
      by_contra hgt
      have hc53 : (53 : Int) ≤ (Nat.log2 n : Int) - (Nat.log2 d : Int) := by omega
      have hle : 53 ≤ ((Nat.log2 n : Int) - (Nat.log2 d : Int)).toNat := by omega
      have h1 : 9007199254740992 ≤ 2 ^ ((Nat.log2 n : Int) - (Nat.log2 d : Int)).toNat :=
        le_trans (by norm_num) (Nat.pow_le_pow_right (show 0 < 2 by norm_num) hle)
      have h2 := Nat.mul_le_mul_left d h1
      omega
    · omega
  · omega

theorem Go.roundHalfEven_bounds (num den : Nat) :
    num / den ≤ roundHalfEven num den ∧ roundHalfEven num den ≤ num / den + 1 := by
  unfold roundHalfEven
  split <;> omega

theorem Go.roundHalfEven_dvd (num den : Nat) (hden : 0 < den) (h : den ∣ num) :
    roundHalfEven num den = num / den := by
  have hm : num % den = 0 := Nat.mod_eq_zero_of_dvd h
  unfold roundHalfEven
  rw [hm]
  simp
  omega

/-- Truncating a value `r` that is the quotient `x / y` scaled by `2^j` and rounded to
a whole number gives the integer part of `x / y`, or one more. -/
theorem Go.scaled_trunc (x y j : Nat) (hy : 0 < y) :
    x / y ≤ roundHalfEven (x * 2 ^ j) y / 2 ^ j
    ∧ roundHalfEven (x * 2 ^ j) y / 2 ^ j ≤ x / y + 1
    ∧ (y ∣ x → roundHalfEven (x * 2 ^ j) y / 2 ^ j = x / y) := by
  have hp : 0 < 2 ^ j := Nat.pow_pos (by norm_num)
  have hb := Go.roundHalfEven_bounds (x * 2 ^ j) y
  have hfloor : x * 2 ^ j / y / 2 ^ j = x / y := by
    rw [Nat.div_div_eq_div_mul, Nat.mul_div_mul_right _ _ hp]
  refine ⟨?_, ?_, ?_⟩
  · calc x / y = x * 2 ^ j / y / 2 ^ j := hfloor.symm
      _ ≤ roundHalfEven (x * 2 ^ j) y / 2 ^ j := Nat.div_le_div_right hb.1
  · calc roundHalfEven (x * 2 ^ j) y / 2 ^ j ≤ (x * 2 ^ j / y + 1) / 2 ^ j :=
          Nat.div_le_div_right hb.2
      _ ≤ (x * 2 ^ j / y + 2 ^ j) / 2 ^ j := Nat.div_le_div_right (by omega)
      _ = x * 2 ^ j / y / 2 ^ j + 1 := Nat.add_div_right _ hp
      _ = x / y + 1 := by rw [hfloor]
  · intro hd
    rw [Go.roundHalfEven_dvd _ _ hy (Dvd.dvd.mul_right hd _), hfloor]

/-- The `float64` quotient of a positive natural number `d` by a positive finite
`s = m * 2^e`, converted to `int64`, when the exact quotient is below `2^53`:
the integer part of the exact quotient or one more, and the exact quotient when
that is a whole number. -/
theorem Go.int64OfFloat_divNat (big : Float64 → Int) (d m : Nat) (e : Int)
    (hd : 0 < d) (hm : 0 < m)
    (hq : d * 2 ^ (-e).toNat < 9007199254740992 * (m * 2 ^ e.toNat)) :
    ∃ w : Nat, int64OfFloat big (divNat d (Float64.finite false m e)) = (w : Int)
      ∧ d * 2 ^ (-e).toNat / (m * 2 ^ e.toNat) ≤ w
      ∧ w ≤ d * 2 ^ (-e).toNat / (m * 2 ^ e.toNat) + 1
      ∧ (m * 2 ^ e.toNat ∣ d * 2 ^ (-e).toNat → w = d * 2 ^ (-e).toNat / (m * 2 ^ e.toNat)) := by
  generalize hN : d * 2 ^ (-e).toNat = N at hq ⊢
  generalize hD : m * 2 ^ e.toNat = D at hq ⊢
  have hNpos : 0 < N := by
    rw [← hN]; exact Nat.mul_pos hd (Nat.pow_pos (by norm_num))
  have hDpos : 0 < D := by
    rw [← hD]; exact Nat.mul_pos hm (Nat.pow_pos (by norm_num))
  have hL := Go.quoLog2_le N D hNpos hDpos hq
  have hdiv : N / D < 9007199254740992 := (Nat.div_lt_iff_lt_mul hDpos).mpr hq
  have hm0 : m ≠ 0 := by omega
  have hd0 : d ≠ 0 := by omega
  -- the unit of the rounded quotient is 2^k with k ≤ 0
  obtain ⟨j, hj⟩ : ∃ j : Nat, max (quoLog2 N D - 52) (-1074) = - (j : Int) := by
    refine ⟨(- max (quoLog2 N D - 52) (-1074)).toNat, ?_⟩
    omega
  have hs := Go.scaled_trunc N D j hDpos
  refine ⟨roundHalfEven (N * 2 ^ j) D / 2 ^ j, ?_, hs.1, hs.2.1, hs.2.2⟩
  have hw : roundHalfEven (N * 2 ^ j) D / 2 ^ j ≤ 9007199254740992 := by
    have := hs.2.1
    omega
  simp only [divNat, hm0, hd0, if_false, hN, hD, roundQuo, hj]
  by_cases hj0 : j = 0
  · subst hj0
    simp only [Nat.cast_zero, neg_zero, le_refl, if_true, Int.toNat_zero, pow_zero, mul_one,
      Nat.div_one] at hw ⊢
    have h1 : ¬ ((971 : Int) < 0 ∨ ((0 : Int) = 971 ∧ 9007199254740992 ≤ roundHalfEven N D)) := by
      omega
    simp only [h1, if_false, int64OfFloat, le_refl, if_true, Int.toNat_zero, pow_zero, mul_one,
      Bool.false_eq_true]
    rw [if_pos (by omega)]
  · have hneg : ¬ (0 : Int) ≤ - (j : Int) := by omega
    have hjj : (- - (j : Int)).toNat = j := by omega
    have h1 : ¬ ((971 : Int) < - (j : Int)
        ∨ (- (j : Int) = 971 ∧ 9007199254740992 ≤ roundHalfEven (N * 2 ^ j) D)) := by
      omega
    simp only [hneg, if_false, hjj, h1, int64OfFloat, Bool.false_eq_true]
    have hcast : ((roundHalfEven (N * 2 ^ j) D : Nat) : Int) / (2 : Int) ^ j
        = ((roundHalfEven (N * 2 ^ j) D / 2 ^ j : Nat) : Int) := by
      push_cast
      rfl
    rw [hcast]
    generalize roundHalfEven (N * 2 ^ j) D / 2 ^ j = W at hw ⊢
    rw [if_pos (by omega)]

end Quotient

/-! ## Supporting lemmas: the main loop of the player, frame by frame -/

section MainLoop

open ttyplay

theorem ttyplay.lineFeed_carry (echo : consoleScreenBufferInfo → Nat → consoleScreenBufferInfo)
    (st : State) (x : Nat) (w : List (Option Nat)) :
    lineFeed echo { st with t := x, waits := w }
      = ({ (lineFeed echo st).1 with t := x, waits := w }, (lineFeed echo st).2) := by
  obtain ⟨t, lb, sc, con, ws⟩ := st
  cases sc with
  | none =>
    simp only [lineFeed]
    split <;> rfl
  | some sc =>
    by_cases h : con.csbi.cursorPosition.y = sc.bottom
    · simp only [lineFeed, h, decide_True]
    · simp only [lineFeed, h, decide_False]
      split <;> rfl

theorem ttyplay.plain_carry (echo : consoleScreenBufferInfo → Nat → consoleScreenBufferInfo)
    (c1 : Nat) (st : State) (x : Nat) (w : List (Option Nat)) :
    plain echo c1 { st with t := x, waits := w }
      = ({ (plain echo c1 st).1 with t := x, waits := w }, (plain echo c1 st).2) := by
  unfold plain
  dsimp only
  split
  · rfl
  · split
    · exact ttyplay.lineFeed_carry echo st x w
    · split <;> rfl

theorem ttyplay.dispatch_carry (attr_old m : Nat) (buf : List Nat)
    (st : State) (x : Nat) (w : List (Option Nat)) :
    dispatch attr_old m buf { st with t := x, waits := w }
      = ({ (dispatch attr_old m buf st).1 with t := x, waits := w },
         (dispatch attr_old m buf st).2) := by
  obtain ⟨G, hG⟩ : ∃ G : State × Bool → State × Bool,
      ∀ r, G r = ({ r.1 with t := x, waits := w }, r.2) := ⟨_, fun _ => rfl⟩
  rw [← hG]
  unfold dispatch
  simp only [apply_ite G, hG]

/-- The decoder neither reads nor writes `t` and the timer log: decoding from a
state with other values of the two gives the same result with those values. -/
theorem ttyplay.parseLoop_carry (echo : consoleScreenBufferInfo → Nat → consoleScreenBufferInfo)
    (attr_old : Nat) (x : Nat) (w : List (Option Nat)) :
    ∀ (fuel : Nat) (runes : List Nat) (st : State),
    parseLoop echo attr_old fuel runes { st with t := x, waits := w }
      = ({ (parseLoop echo attr_old fuel runes st).1 with t := x, waits := w },
         (parseLoop echo attr_old fuel runes st).2) := by
  intro fuel
  induction fuel with
  | zero => intro runes st; rfl
  | succ f ih =>
    intro runes st
    match runes with
    | [] => rfl
    | c1 :: rs =>
      simp only [parseLoop]
      split
      · rw [ttyplay.plain_carry]
        dsimp only
        split
        · exact ih rs _
        · rfl
      · match rs with
        | [] => rfl
        | c2 :: rs2 =>
          dsimp only
          split
          · split
            · rfl
            · rw [ttyplay.dispatch_carry]
              dsimp only
              split
              · exact ih _ _
              · rfl
          · split
            · split
              · rfl
              · exact ih _ _
            · rw [ttyplay.dispatch_carry]
              dsimp only
              split
              · exact ih _ _
              · rfl

theorem ttyplay.parse_carry (echo : consoleScreenBufferInfo → Nat → consoleScreenBufferInfo)
    (attr_old : Nat) (runes : List Nat) (st : State) (x : Nat) (w : List (Option Nat)) :
    parse echo attr_old runes { st with t := x, waits := w }
      = ({ (parse echo attr_old runes st).1 with t := x, waits := w },
         (parse echo attr_old runes st).2) :=
  ttyplay.parseLoop_carry echo attr_old x w _ runes st

theorem ttyplay.readData_payload (chunk : Nat) (b rest : List Nat) :
    readData chunk [] b.length (b ++ rest) = (b, rest) := by
  have h := ttyplay.readLoop_payload chunk b rest b.length 0 (Nat.zero_le _) (by omega)
  simp only [List.drop_zero, List.take_zero, List.nil_append, Nat.sub_zero] at h
  simp [readData, h]

/-- One turn of the main loop on a frame of the recording format, when no bytes
are pending: the wait is logged, the payload is decoded, and the loop goes on
with the rest of the recording unless the decoder left it. -/
theorem ttyplay.mainLoop_frame (env : Env) (attr_old fuel s u : Nat) (b rest : List Nat)
    (st : State) (hs : s < 4294967296) (hu : u < 4294967296) (hb : b.length < 4294967296)
    (hl : st.lastbuf = []) :
    mainLoop env attr_old (fuel + 1) (Run.frame s u b ++ rest) st
      = if (parse env.echo attr_old (env.decode b) st).2 then
          mainLoop env attr_old fuel rest
            { (parse env.echo attr_old (env.decode b) st).1 with
              t := (pace env.flag_n (timerWait env.int64OfBig env.flag_s) st.t s u).2,
              waits := st.waits
                ++ [(pace env.flag_n (timerWait env.int64OfBig env.flag_s) st.t s u).1] }
        else
          { (parse env.echo attr_old (env.decode b) st).1 with
            t := (pace env.flag_n (timerWait env.int64OfBig env.flag_s) st.t s u).2,
            waits := st.waits
              ++ [(pace env.flag_n (timerWait env.int64OfBig env.flag_s) st.t s u).1] } := by
  have hst : ∀ (x : Nat) (w : List (Option Nat)),
      ({ st with t := x, waits := w, lastbuf := [] } : State) = { st with t := x, waits := w } := by
    intro x w
    obtain ⟨t, lb, sc, con, ws⟩ := st
    simp only at hl
    subst hl
    rfl
  simp only [mainLoop, Go.readHeader_frame s u b rest hs hu hb, frame, hl,
    ttyplay.readData_payload, hst, ttyplay.parse_carry]

theorem ttyplay.mainLoop_end (env : Env) (attr_old fuel : Nat) (st : State) :
    mainLoop env attr_old fuel [] st = st := by
  cases fuel <;> simp [mainLoop, Go.readHeader]
/-- Line 159 for a positive difference `d` and a positive finite speed factor
`s = m * 2^e` with `d / s` below `2^53`: the timer is reset to a whole number `w`
of microseconds (`1000 * w` nanoseconds), where `w` is `d / s` rounded down or up
to a whole number. -/
theorem ttyplay.timerWait_quotient (big : Go.Float64 → Int) (d m : Nat) (e : Int)
    (hd : 0 < d) (hm : 0 < m)
    (hq : d * 2 ^ (-e).toNat < 9007199254740992 * (m * 2 ^ e.toNat)) :
    ∃ w : Nat, timerWait big (Go.Float64.finite false m e) d = 1000 * w
      ∧ d * 2 ^ (-e).toNat / (m * 2 ^ e.toNat) ≤ w
      ∧ w ≤ (d * 2 ^ (-e).toNat + m * 2 ^ e.toNat - 1) / (m * 2 ^ e.toNat) := by
  obtain ⟨w, hw, h1, h2, h3⟩ := Go.int64OfFloat_divNat big d m e hd hm hq
  have hD : 0 < m * 2 ^ e.toNat := Nat.mul_pos hm (Nat.pow_pos (by norm_num))
  generalize d * 2 ^ (-e).toNat = N at hq h1 h2 h3
  generalize m * 2 ^ e.toNat = D at hq h1 h2 h3 hD
  have hdiv : N / D < 9007199254740992 := (Nat.div_lt_iff_lt_mul hD).mpr hq
  refine ⟨w, ?_, h1, ?_⟩
  · have hw53 : w ≤ 9007199254740992 := by omega
    have hmod : ((w : Int) * 1000 + 9223372036854775808) % 18446744073709551616
        = (w : Int) * 1000 + 9223372036854775808 := Int.emod_eq_of_lt (by omega) (by omega)
    unfold timerWait Go.int64
    rw [hw, hmod]
    omega
  · rw [Nat.le_div_iff_mul_le hD]
    by_cases hdvd : D ∣ N
    · rw [h3 hdvd]
      have := Nat.div_mul_le_self N D
      omega
    · have hmod : 0 < N % D := Nat.pos_of_ne_zero (fun h0 => hdvd (Nat.dvd_of_mod_eq_zero h0))
      have hle : w * D ≤ (N / D + 1) * D := Nat.mul_le_mul_right D h2
      have hdm := Nat.div_add_mod N D
      have hc : D * (N / D) = N / D * D := Nat.mul_comm _ _
      have he : (N / D + 1) * D = N / D * D + D := by ring
      omega

/-- The timer log of `main` on a recording of three frames, when the first two
payloads are decoded to their end (no bytes left pending, the loop not left): one
entry per frame, the pacing of lines 156-167 from `t = 0` on. -/
theorem ttyplay.main_three_frames (env : Env) (con : Console)
    (s0 u0 s1 u1 s2 u2 : Nat) (b0 b1 b2 : List Nat)
    (r0 : s0 < 4294967296 ∧ u0 < 4294967296 ∧ b0.length < 4294967296)
    (r1 : s1 < 4294967296 ∧ u1 < 4294967296 ∧ b1.length < 4294967296)
    (r2 : s2 < 4294967296 ∧ u2 < 4294967296 ∧ b2.length < 4294967296)
    (c0 : (parse env.echo con.csbi.attributes (env.decode b0)
            { t := 0, lastbuf := [], scroll := none, con := con, waits := [] }).1.lastbuf = []
          ∧ (parse env.echo con.csbi.attributes (env.decode b0)
            { t := 0, lastbuf := [], scroll := none, con := con, waits := [] }).2 = true)
    (c1 : (parse env.echo con.csbi.attributes (env.decode b1)
            (parse env.echo con.csbi.attributes (env.decode b0)
              { t := 0, lastbuf := [], scroll := none, con := con, waits := [] }).1).1.lastbuf = []
          ∧ (parse env.echo con.csbi.attributes (env.decode b1)
            (parse env.echo con.csbi.attributes (env.decode b0)
              { t := 0, lastbuf := [], scroll := none, con := con, waits := [] }).1).2 = true) :
    (main env con (Run.recording [(s0, u0, b0), (s1, u1, b1), (s2, u2, b2)])).waits
      = [(pace env.flag_n (timerWait env.int64OfBig env.flag_s) 0 s0 u0).1,
         (pace env.flag_n (timerWait env.int64OfBig env.flag_s)
            (pace env.flag_n (timerWait env.int64OfBig env.flag_s) 0 s0 u0).2 s1 u1).1,
         (pace env.flag_n (timerWait env.int64OfBig env.flag_s)
            (pace env.flag_n (timerWait env.int64OfBig env.flag_s)
              (pace env.flag_n (timerWait env.int64OfBig env.flag_s) 0 s0 u0).2 s1 u1).2
            s2 u2).1] := by
  obtain ⟨k, hk⟩ : ∃ k, (Run.recording [(s0, u0, b0), (s1, u1, b1), (s2, u2, b2)]).length + 1
      = k + 1 + 1 + 1 := by
    refine ⟨(Run.recording [(s0, u0, b0), (s1, u1, b1), (s2, u2, b2)]).length - 2, ?_⟩
    simp only [Run.recording, List.length_append, Run.frame_length, List.length_nil]
    omega
  generalize hp0 : pace env.flag_n (timerWait env.int64OfBig env.flag_s) 0 s0 u0 = p0
  generalize hp1 : pace env.flag_n (timerWait env.int64OfBig env.flag_s) p0.2 s1 u1 = p1
  generalize hp2 : pace env.flag_n (timerWait env.int64OfBig env.flag_s) p1.2 s2 u2 = p2
  unfold main
  rw [hk, Run.recording, Run.recording, Run.recording, Run.recording]
  dsimp only
  rw [ttyplay.mainLoop_frame env _ _ s0 u0 b0 _ _ r0.1 r0.2.1 r0.2.2 rfl, if_pos c0.2, hp0]
  rw [ttyplay.mainLoop_frame env _ _ s1 u1 b1 _ _ r1.1 r1.2.1 r1.2.2]
  swap
  · exact c0.1
  rw [ttyplay.parse_carry]
  dsimp only
  rw [if_pos c1.2, hp1]
  rw [ttyplay.mainLoop_frame env _ _ s2 u2 b2 _ _ r2.1 r2.2.1 r2.2.2]
  swap
  · exact c1.1
  rw [ttyplay.parse_carry]
  dsimp only
  rw [hp2, ttyplay.mainLoop_end]
  split <;> rfl

/-- The quotient of line 159 can round up to the next whole number: for a gap of
577090038 microseconds and the speed factor 8373590675869586 * 2^-29 the exact
quotient is below 37, and the timer is reset to 37 microseconds. -/
theorem ttyplay.timerWait_rounds_up :
    577090038 * 2 ^ 29 / 8373590675869586 = 36
    ∧ timerWait Run.int64OfBig (Go.Float64.finite false 8373590675869586 (-29)) 577090038
        = 1000 * 37 := by
  decide

end MainLoop

/-! ## Pacing in the main loop -/

set_option maxRecDepth 8000 in
/-- Claim C6, counterexample.  Runs of `main` with pacing on, on recordings of three
frames with increasing timestamps; the logged waits are in nanoseconds.
(1) Frames one second apart, the first at 1383000944 s 148480 us, a multiple of
2^32 microseconds, speed 1: no timer is armed before frame 1, where the claim has
a wait of 1000000 microseconds.
(2) Frames at 100 s, 4395 s and 4396 s, speed 1: the gap of 4295000000
microseconds before frame 1 is above 2^32, and the wait is 32704 microseconds.
(3) Frames ten seconds apart, speed 1e-9 (the `float64` 4835703278458517 * 2^-82):
the quotient 10^16 microseconds times 1000 is above 2^63 and wraps to a negative
duration, so the timer expires at once.
(4) Frames one second apart, speed 3: the wait is 333333 microseconds, the
quotient 1000000 / 3 cut to a whole number.
(5) Frames one second apart, speed 1, the payload of frame 0 ending inside an
escape sequence (ESC [) with two bytes pending and frame 1 holding one byte: the
payload of frame 1 is not read, the next header is taken one byte early, and the
wait before the third turn is 313196224 microseconds.
(6) Frames one second apart, speed 1, the payload of frame 0 moving the cursor
five rows up from row 0: the console call fails, the loop is left, and there is
no wait for frames 1 and 2. -/
theorem pacing_law_fails :
    (1383000944 * 1000000 + 148480 < 1383000945 * 1000000 + 148480
      ∧ 1383000945 * 1000000 + 148480 < 1383000946 * 1000000 + 148480
      ∧ (ttyplay.main Run.env (Run.console 0 0 7)
          (Run.recording [(1383000944, 148480, [97]), (1383000945, 148480, [98]),
            (1383000946, 148480, [99])])).waits
        = [none, none, some (1000 * 1000000)])
    ∧ (100 * 1000000 + 0 < 4395 * 1000000 + 0
      ∧ 4395 * 1000000 + 0 < 4396 * 1000000 + 0
      ∧ 4395 * 1000000 + 0 - (100 * 1000000 + 0) = 4295000000
      ∧ (ttyplay.main Run.env (Run.console 0 0 7)
          (Run.recording [(100, 0, [97]), (4395, 0, [98]), (4396, 0, [99])])).waits
        = [none, some (1000 * 32704), some (1000 * 1000000)])
    ∧ (100 * 1000000 + 0 < 110 * 1000000 + 0
      ∧ 110 * 1000000 + 0 < 120 * 1000000 + 0
      ∧ (ttyplay.main (Run.envSpeed (Go.Float64.finite false 4835703278458517 (-82)))
          (Run.console 0 0 7)
          (Run.recording [(100, 0, [97]), (110, 0, [98]), (120, 0, [99])])).waits
        = [none, some 0, some 0])
    ∧ (100 * 1000000 + 0 < 101 * 1000000 + 0
      ∧ 101 * 1000000 + 0 < 102 * 1000000 + 0
      ∧ 3 * 333333 < 1000000
      ∧ (ttyplay.main (Run.envSpeed (Go.Float64.finite false 3 0)) (Run.console 0 0 7)
          (Run.recording [(100, 0, [97]), (101, 0, [98]), (102, 0, [99])])).waits
        = [none, some (1000 * 333333), some (1000 * 333333)])
    ∧ ((ttyplay.main Run.env (Run.console 0 0 7)
          (Run.recording [(100, 0, [27, 91]), (101, 0, [72]), (102, 0, [97])])).waits
        = [none, some (1000 * 1000000), some (1000 * 313196224)])
    ∧ ((ttyplay.main Run.env (Run.console 0 0 7)
          (Run.recording [(100, 0, [27, 91, 53, 65]), (101, 0, [72]), (102, 0, [97])])).waits
        = [none]) := by
  decide

/-- Claim C6, amended.  A recording of three frames with timestamps t0 < t1 < t2
(t = seconds * 1000000 + microseconds, the header fields below 2^32), where t0 and
t1 are not multiples of 2^32 and each gap is below 2^32 microseconds; a speed
factor `s = m * 2^e > 0` (flag `-s`, a finite `float64`) with each gap divided by
`s` below 2^53; the payloads of the first two frames are decoded to their end (no
bytes left pending, no console call failed).  With pacing on, `main` arms no timer
before frame 0 and resets the timer to `w1` and `w2` microseconds (`1000 * w`
nanoseconds) before frames 1 and 2, where `w_i` is `(t_i - t_(i-1)) / s` rounded
down or up to a whole number: the quotient is `N / D` with
`N = (t_i - t_(i-1)) * 2^(-e)` and `D = m * 2^e` over the naturals.  With pacing
off (`-n`) no timer is armed before any frame. -/
theorem pacing_law (env : ttyplay.Env) (con : ttyplay.Console) (m : Nat) (e : Int)
    (s0 u0 s1 u1 s2 u2 : Nat) (b0 b1 b2 : List Nat)
    (hs : env.flag_s = Go.Float64.finite false m e) (hm : 0 < m)
    (r0 : s0 < 4294967296 ∧ u0 < 4294967296 ∧ b0.length < 4294967296)
    (r1 : s1 < 4294967296 ∧ u1 < 4294967296 ∧ b1.length < 4294967296)
    (r2 : s2 < 4294967296 ∧ u2 < 4294967296 ∧ b2.length < 4294967296)
    (h01 : s0 * 1000000 + u0 < s1 * 1000000 + u1)
    (h12 : s1 * 1000000 + u1 < s2 * 1000000 + u2)
    (g01 : s1 * 1000000 + u1 - (s0 * 1000000 + u0) < 4294967296)
    (g12 : s2 * 1000000 + u2 - (s1 * 1000000 + u1) < 4294967296)
    (n0 : (s0 * 1000000 + u0) % 4294967296 ≠ 0)
    (n1 : (s1 * 1000000 + u1) % 4294967296 ≠ 0)
    (q01 : (s1 * 1000000 + u1 - (s0 * 1000000 + u0)) * 2 ^ (-e).toNat
            < 9007199254740992 * (m * 2 ^ e.toNat))
    (q12 : (s2 * 1000000 + u2 - (s1 * 1000000 + u1)) * 2 ^ (-e).toNat
            < 9007199254740992 * (m * 2 ^ e.toNat))
    (c0 : (ttyplay.parse env.echo con.csbi.attributes (env.decode b0)
            { t := 0, lastbuf := [], scroll := none, con := con, waits := [] }).1.lastbuf = []
          ∧ (ttyplay.parse env.echo con.csbi.attributes (env.decode b0)
            { t := 0, lastbuf := [], scroll := none, con := con, waits := [] }).2 = true)
    (c1 : (ttyplay.parse env.echo con.csbi.attributes (env.decode b1)
            (ttyplay.parse env.echo con.csbi.attributes (env.decode b0)
              { t := 0, lastbuf := [], scroll := none, con := con, waits := [] }).1).1.lastbuf = []
          ∧ (ttyplay.parse env.echo con.csbi.attributes (env.decode b1)
            (ttyplay.parse env.echo con.csbi.attributes (env.decode b0)
              { t := 0, lastbuf := [], scroll := none, con := con, waits := [] }).1).2 = true) :
    (∃ w1 w2 : Nat,
      (ttyplay.main { env with flag_n := false } con
          (Run.recording [(s0, u0, b0), (s1, u1, b1), (s2, u2, b2)])).waits
        = [none, some (1000 * w1), some (1000 * w2)]
      ∧ (s1 * 1000000 + u1 - (s0 * 1000000 + u0)) * 2 ^ (-e).toNat / (m * 2 ^ e.toNat) ≤ w1
      ∧ w1 ≤ ((s1 * 1000000 + u1 - (s0 * 1000000 + u0)) * 2 ^ (-e).toNat + m * 2 ^ e.toNat - 1)
            / (m * 2 ^ e.toNat)
      ∧ (s2 * 1000000 + u2 - (s1 * 1000000 + u1)) * 2 ^ (-e).toNat / (m * 2 ^ e.toNat) ≤ w2
      ∧ w2 ≤ ((s2 * 1000000 + u2 - (s1 * 1000000 + u1)) * 2 ^ (-e).toNat + m * 2 ^ e.toNat - 1)
            / (m * 2 ^ e.toNat))
    ∧ (ttyplay.main { env with flag_n := true } con
          (Run.recording [(s0, u0, b0), (s1, u1, b1), (s2, u2, b2)])).waits
        = [none, none, none] := by
  have e01 := Go.uint32_sub_wrap _ _ (Nat.le_of_lt h01) g01
  have e12 := Go.uint32_sub_wrap _ _ (Nat.le_of_lt h12) g12
  have m0 : Go.uint32 (s0 * 1000000 + u0) ≠ 0 := n0
  have m1 : Go.uint32 (s1 * 1000000 + u1) ≠ 0 := n1
  obtain ⟨w1, hw1, lo1, hi1⟩ := ttyplay.timerWait_quotient env.int64OfBig
    (s1 * 1000000 + u1 - (s0 * 1000000 + u0)) m e (by omega) hm q01
  obtain ⟨w2, hw2, lo2, hi2⟩ := ttyplay.timerWait_quotient env.int64OfBig
    (s2 * 1000000 + u2 - (s1 * 1000000 + u1)) m e (by omega) hm q12
  constructor
  · refine ⟨w1, w2, ?_, lo1, hi1, lo2, hi2⟩
    rw [ttyplay.main_three_frames { env with flag_n := false } con s0 u0 s1 u1 s2 u2 b0 b1 b2
      r0 r1 r2 c0 c1]
    simp [ttyplay.pace, m0, m1, e01, e12, hs, hw1, hw2]
  · rw [ttyplay.main_three_frames { env with flag_n := true } con s0 u0 s1 u1 s2 u2 b0 b1 b2
      r0 r1 r2 c0 c1]
    simp [ttyplay.pace]

theorem pacing_law_witness :
    ((Run.envSpeed (Go.Float64.finite false 1 1)).flag_s = Go.Float64.finite false 1 1
      ∧ 0 < 1
      ∧ (100 < 4294967296 ∧ 0 < 4294967296 ∧ [72, 105].length < 4294967296)
      ∧ (101 < 4294967296 ∧ 250000 < 4294967296 ∧ [27, 91, 72].length < 4294967296)
      ∧ (105 < 4294967296 ∧ 500000 < 4294967296 ∧ [33].length < 4294967296)
      ∧ 100 * 1000000 + 0 < 101 * 1000000 + 250000
      ∧ 101 * 1000000 + 250000 < 105 * 1000000 + 500000
      ∧ 101 * 1000000 + 250000 - (100 * 1000000 + 0) < 4294967296
      ∧ 105 * 1000000 + 500000 - (101 * 1000000 + 250000) < 4294967296
      ∧ (100 * 1000000 + 0) % 4294967296 ≠ 0
      ∧ (101 * 1000000 + 250000) % 4294967296 ≠ 0
      ∧ (101 * 1000000 + 250000 - (100 * 1000000 + 0)) * 2 ^ (-(1 : Int)).toNat
          < 9007199254740992 * (1 * 2 ^ (1 : Int).toNat)
      ∧ (105 * 1000000 + 500000 - (101 * 1000000 + 250000)) * 2 ^ (-(1 : Int)).toNat
          < 9007199254740992 * (1 * 2 ^ (1 : Int).toNat)
      ∧ ((ttyplay.parse (Run.envSpeed (Go.Float64.finite false 1 1)).echo
            (Run.console 0 0 7).csbi.attributes
            ((Run.envSpeed (Go.Float64.finite false 1 1)).decode [72, 105])
            { t := 0, lastbuf := [], scroll := none, con := Run.console 0 0 7,
              waits := [] }).1.lastbuf = []
          ∧ (ttyplay.parse (Run.envSpeed (Go.Float64.finite false 1 1)).echo
            (Run.console 0 0 7).csbi.attributes
            ((Run.envSpeed (Go.Float64.finite false 1 1)).decode [72, 105])
            { t := 0, lastbuf := [], scroll := none, con := Run.console 0 0 7,
              waits := [] }).2 = true)
      ∧ ((ttyplay.parse (Run.envSpeed (Go.Float64.finite false 1 1)).echo
            (Run.console 0 0 7).csbi.attributes
            ((Run.envSpeed (Go.Float64.finite false 1 1)).decode [27, 91, 72])
            (ttyplay.parse (Run.envSpeed (Go.Float64.finite false 1 1)).echo
              (Run.console 0 0 7).csbi.attributes
              ((Run.envSpeed (Go.Float64.finite false 1 1)).decode [72, 105])
              { t := 0, lastbuf := [], scroll := none, con := Run.console 0 0 7,
                waits := [] }).1).1.lastbuf = []
          ∧ (ttyplay.parse (Run.envSpeed (Go.Float64.finite false 1 1)).echo
            (Run.console 0 0 7).csbi.attributes
            ((Run.envSpeed (Go.Float64.finite false 1 1)).decode [27, 91, 72])
            (ttyplay.parse (Run.envSpeed (Go.Float64.finite false 1 1)).echo
              (Run.console 0 0 7).csbi.attributes
              ((Run.envSpeed (Go.Float64.finite false 1 1)).decode [72, 105])
              { t := 0, lastbuf := [], scroll := none, con := Run.console 0 0 7,
                waits := [] }).1).2 = true))
    ∧ ((∃ w1 w2 : Nat,
        (ttyplay.main { Run.envSpeed (Go.Float64.finite false 1 1) with flag_n := false }
            (Run.console 0 0 7)
            (Run.recording [(100, 0, [72, 105]), (101, 250000, [27, 91, 72]),
              (105, 500000, [33])])).waits
          = [none, some (1000 * w1), some (1000 * w2)]
        ∧ (101 * 1000000 + 250000 - (100 * 1000000 + 0)) * 2 ^ (-(1 : Int)).toNat
            / (1 * 2 ^ (1 : Int).toNat) ≤ w1
        ∧ w1 ≤ ((101 * 1000000 + 250000 - (100 * 1000000 + 0)) * 2 ^ (-(1 : Int)).toNat
                + 1 * 2 ^ (1 : Int).toNat - 1) / (1 * 2 ^ (1 : Int).toNat)
        ∧ (105 * 1000000 + 500000 - (101 * 1000000 + 250000)) * 2 ^ (-(1 : Int)).toNat
            / (1 * 2 ^ (1 : Int).toNat) ≤ w2
        ∧ w2 ≤ ((105 * 1000000 + 500000 - (101 * 1000000 + 250000)) * 2 ^ (-(1 : Int)).toNat
                + 1 * 2 ^ (1 : Int).toNat - 1) / (1 * 2 ^ (1 : Int).toNat))
      ∧ (ttyplay.main { Run.envSpeed (Go.Float64.finite false 1 1) with flag_n := true }
            (Run.console 0 0 7)
            (Run.recording [(100, 0, [72, 105]), (101, 250000, [27, 91, 72]),
              (105, 500000, [33])])).waits
          = [none, none, none])
    ∧ (ttyplay.main { Run.envSpeed (Go.Float64.finite false 1 1) with flag_n := false }
          (Run.console 0 0 7)
          (Run.recording [(100, 0, [72, 105]), (101, 250000, [27, 91, 72]),
            (105, 500000, [33])])).waits
        = [none, some (1000 * 625000), some (1000 * 2125000)] :=
  ⟨by decide,
   pacing_law (Run.envSpeed (Go.Float64.finite false 1 1)) (Run.console 0 0 7) 1 1
     100 0 101 250000 105 500000 [72, 105] [27, 91, 72] [33]
     (by decide) (by decide) (by decide) (by decide) (by decide) (by decide) (by decide)
     (by decide) (by decide) (by decide) (by decide) (by decide) (by decide)
     (by decide) (by decide),
   by decide⟩
